import Mathlib

/-!
# Acts: SurfaceCollector and BinnedArrayXD

A shallow embedding of

* `Core/include/Acts/Propagator/SurfaceCollector.hpp`
  (`SurfaceSelector`, `SurfaceHit`, `SurfaceCollector`),
* `Core/include/ACTS/Utilities/BinnedArrayXD.hpp` (`BinnedArrayXD<T>`),
* `Core/src/Propagator/StraightLineStepper.cpp` (`StraightLineStepper`), and
* `Examples/Scripts/MaterialMaping/materialPlotHelper.cpp`
  (the stream output of a `GeometryID`, `Initialise_info`).

Conventions.

* A C++ pointer is an `Option`: `none` is `nullptr`.
* Positions and directions (`Vector2D`, `Vector3D`) are never computed with by
  the code embedded here, only handed on, so their types are parameters.
* `std::vector` is `List`; `operator[]` outside the vector's size is undefined
  behaviour in C++ and is `none` here.
* Collaborators whose code is not part of these files (the stepper of the
  collector, the `BinUtility`, the stream output of a `GeometryID`, the Eigen
  vector functions, `detail::boundState`) are parameters.
* A `double` is an element of a type `R` that is a parameter; where a
  concrete value is needed it is a rational number.
-/

namespace Acts

/-! ## SurfaceCollector.hpp -/

/-- The members of `Acts::Surface` that the collector reads: the two
pointers tested by the selector, and the geometry identifier (a 64-bit
value) printed in the debug line. -/
structure Surface where
  associatedDetectorElement : Option Nat
  surfaceMaterial : Option Nat
  geoID : Nat
deriving DecidableEq, Repr

/-- The `struct SurfaceSelector`: three flags, with the defaults of the source. -/
structure SurfaceSelector where
  selectSensitive : Bool := true
  selectMaterial : Bool := false
  selectPassive : Bool := false
deriving DecidableEq, Repr

/-- The call operator `SurfaceSelector::operator()(const Surface&)`: three
early returns. -/
def SurfaceSelector.call (self : SurfaceSelector) (surface : Surface) : Bool :=
  if self.selectSensitive && surface.associatedDetectorElement != none then
    true
  else if self.selectMaterial && surface.surfaceMaterial != none then
    true
  else if self.selectPassive then
    true
  else
    false

/-- The `struct SurfaceHit`: the surface pointer, the position, the direction. -/
structure SurfaceHit (V : Type) where
  surface : Option Surface
  position : V
  direction : V
deriving DecidableEq, Repr

/-- The result struct `SurfaceCollector::this_result`: the collected hits. -/
structure this_result (V : Type) where
  collected : List (SurfaceHit V)
deriving DecidableEq, Repr

/-- The options of the propagator state that `debugLog` reads and writes. -/
structure PropagatorOptions where
  debug : Bool
  debugString : String
  debugPfxWidth : Int
  debugMsgWidth : Int
deriving DecidableEq, Repr

/-- The navigation part of the propagator state: `currentSurface` is a
pointer, `none` when the navigator has assigned no surface. -/
structure NavigationState where
  currentSurface : Option Surface
deriving DecidableEq, Repr

/-- The propagator state (`propagator_state_t`), with the stepping state of
type `S` left to the stepper. -/
structure PropagatorState (S : Type) where
  options : PropagatorOptions
  navigation : NavigationState
  stepping : S

/-- The two stepper queries (`stepper_t`) the collector calls. -/
structure Stepper (S V : Type) where
  position : S → V
  direction : S → V

/-- The manipulator `std::setw(w)` applied to the next string written to a fresh
`std::stringstream`: right-justified, filled with blanks on the left up to
width `w`, the width of the string being its size in bytes
(`std::string::size()`); a width not above the size pads nothing. -/
def setw (w : Int) (s : String) : String :=
  String.mk (List.replicate (w - s.utf8ByteSize).toNat ' ') ++ s

/-- The private `SurfaceCollector::debugLog`: when `state.options.debug` holds, one line
is built from the prefix and the message of `logAction` and appended to
`state.options.debugString`; otherwise nothing is done and `logAction` is
not called. -/
def debugLog {S : Type} (state : PropagatorState S) (logAction : Unit → String) :
    PropagatorState S :=
  if state.options.debug then
    let dstream : String := "   " ++ setw state.options.debugPfxWidth "surface collector" ++ " | "
    let dstream : String := dstream ++ setw state.options.debugMsgWidth (logAction ()) ++ "\n"
    { state with options := { state.options with
        debugString := state.options.debugString ++ dstream } }
  else
    state

/-- The `struct SurfaceCollector<Selector>`: the selector, as the predicate its
call operator computes. -/
structure SurfaceCollector where
  selector : Surface → Bool

/-- The default `SurfaceCollector<SurfaceSelector>`. -/
def SurfaceCollector.ofSelector (sel : SurfaceSelector) : SurfaceCollector :=
  { selector := sel.call }

/-- The three-argument `SurfaceCollector::operator()(state, stepper, result)`.
`geoIDStream` is the stream output of a `GeometryID`, used in the debug
line only. The state and the result are passed by reference in the source
and returned here. -/
def SurfaceCollector.call {S V : Type} (self : SurfaceCollector)
    (geoIDStream : Nat → String) (state : PropagatorState S)
    (stepper : Stepper S V) (result : this_result V) :
    PropagatorState S × this_result V :=
  match state.navigation.currentSurface with
  | some currentSurface =>
    if self.selector currentSurface then
      let surface_hit : SurfaceHit V :=
        { surface := state.navigation.currentSurface
          position := stepper.position state.stepping
          direction := stepper.direction state.stepping }
      let result : this_result V := { collected := result.collected ++ [surface_hit] }
      let state := debugLog state
        (fun _ => "Collect surface  " ++ geoIDStream currentSurface.geoID)
      (state, result)
    else
      (state, result)
  | none => (state, result)

/-- The two-argument observer `SurfaceCollector::operator()(state, stepper)`:
an empty body. -/
def SurfaceCollector.observe {S V : Type} (_self : SurfaceCollector)
    (state : PropagatorState S) (_stepper : Stepper S V) : PropagatorState S :=
  state

/-! ## BinnedArrayXD.hpp -/

/-- A bin triple `std::array<size_t, 3>`, written `(bins[0], bins[1], bins[2])`. -/
abbrev BinTriple := Nat × Nat × Nat

/-- The `BinUtility` collaborator, by the member functions that
`BinnedArrayXD` calls: `bins(axis)`, `inside(position)`,
`binTriple(position)`, `bin(position, axis)` for a global position,
`bin(lposition, axis)` for a local one, and `dimensions()`. Its code is
not part of this header, so each is a field. -/
structure BinUtility (V2 V3 : Type) where
  bins : Nat → Nat
  inside : V3 → Bool
  binTriple : V3 → BinTriple
  bin : V3 → Nat → Nat
  binLocal : V2 → Nat → Nat
  dimensions : Nat

/-- The object grid `std::vector<std::vector<std::vector<T>>>`, for the
pointer type `T = Option α`; the outermost index is `bins[2]`. -/
abbrev ObjectGrid (α : Type) := List (List (List (Option α)))

/-- Read `grid[i2][i1][i0]`; `none` when an index is outside its vector. -/
def gridAt {α : Type} (grid : ObjectGrid α) (i2 i1 i0 : Nat) : Option (Option α) :=
  match grid[i2]? with
  | none => none
  | some plane =>
    match plane[i1]? with
    | none => none
    | some row => row[i0]?

/-- Write `grid[i2][i1][i0] = object`; `none` when an index is outside its
vector. -/
def gridSet {α : Type} (grid : ObjectGrid α) (i2 i1 i0 : Nat) (object : Option α) :
    Option (ObjectGrid α) :=
  match grid[i2]? with
  | none => none
  | some plane =>
    match plane[i1]? with
    | none => none
    | some row =>
      if i0 < row.length then
        some (grid.set i2 (plane.set i1 (row.set i0 object)))
      else
        none

/-- The `std::find(...) == end()` test followed by `push_back`: append the
object unless the vector holds it already. -/
def pushUnique {α : Type} [DecidableEq α] (arrayObjects : List (Option α))
    (object : Option α) : List (Option α) :=
  if object ∈ arrayObjects then arrayObjects else arrayObjects ++ [object]

/-- The data members of `BinnedArrayXD<T>`. -/
structure BinnedArrayXD (α V2 V3 : Type) where
  m_objectGrid : ObjectGrid α
  m_arrayObjects : List (Option α)
  m_binUtility : Option (BinUtility V2 V3)

namespace BinnedArrayXD

variable {α V2 V3 : Type}

/-- The member initialisers of the single-object constructor:
`m_objectGrid()`, `m_arrayObjects({object})`, `m_binUtility(nullptr)`. -/
def singleInit (object : Option α) : BinnedArrayXD α V2 V3 :=
  { m_objectGrid := []
    m_arrayObjects := [object]
    m_binUtility := none }

/-- The constructor `BinnedArrayXD(T object)`: the member initialisers, then
the body `m_objectGrid[0][0][0] = object`. -/
def single (object : Option α) : Option (BinnedArrayXD α V2 V3) :=
  let self : BinnedArrayXD α V2 V3 := singleInit object
  match gridSet self.m_objectGrid 0 0 0 object with
  | some grid => some { self with m_objectGrid := grid }
  | none => none

/-- The grid the pair-list constructor starts from: `bins(2)` planes of
`bins(1)` rows of `bins(0)` cells, each `nullptr`. -/
def emptyGrid (bu : BinUtility V2 V3) : ObjectGrid α :=
  List.replicate (bu.bins 2) (List.replicate (bu.bins 1) (List.replicate (bu.bins 0) none))

/-- The loop of the pair-list constructor over `tapvector`, on the pair of
`m_objectGrid` and `m_arrayObjects`. -/
def fillPairs [DecidableEq α] (bu : BinUtility V2 V3) :
    List (Option α × V3) → ObjectGrid α × List (Option α) →
    Option (ObjectGrid α × List (Option α))
  | [], acc => some acc
  | tap :: rest, (grid, arrayObjects) =>
    if bu.inside tap.2 then
      let bins := bu.binTriple tap.2
      match gridSet grid bins.2.2 bins.2.1 bins.1 tap.1 with
      | some grid => fillPairs bu rest (grid, pushUnique arrayObjects tap.1)
      | none => none
    else
      fillPairs bu rest (grid, arrayObjects)

/-- The constructor `BinnedArrayXD(tapvector, bu)`. The pointer `bu` is
dereferenced in the first member initialiser, so it is taken non-null.
`reserve` changes the capacity only. -/
def fromPairs [DecidableEq α] (tapvector : List (Option α × V3)) (bu : BinUtility V2 V3) :
    Option (BinnedArrayXD α V2 V3) :=
  match fillPairs bu tapvector (emptyGrid bu, []) with
  | some (grid, arrayObjects) =>
    some { m_objectGrid := grid, m_arrayObjects := arrayObjects, m_binUtility := some bu }
  | none => none

/-- The innermost loop of the grid constructor, over the cells `o0` of a row. -/
def scanRow [DecidableEq α] (arrayObjects : List (Option α)) (o1 : List (Option α)) :
    List (Option α) :=
  o1.foldl (fun acc o0 => if o0.isSome then pushUnique acc o0 else acc) arrayObjects

/-- The three nested loops of the grid constructor. -/
def scanGrid [DecidableEq α] (arrayObjects : List (Option α)) (grid : ObjectGrid α) :
    List (Option α) :=
  grid.foldl (fun acc o2 => o2.foldl scanRow acc) arrayObjects

/-- The constructor `BinnedArrayXD(grid, bu)`. The pointer `bu` is
dereferenced in the body, so it is taken non-null. The product of the
three bin counts is used for `reserve` only. -/
def fromGrid [DecidableEq α] (grid : ObjectGrid α) (bu : BinUtility V2 V3) :
    BinnedArrayXD α V2 V3 :=
  { m_objectGrid := grid
    m_arrayObjects := scanGrid [] grid
    m_binUtility := some bu }

/-- The query `object(const Vector2D& lposition, std::array<size_t, 3>& bins)`: the
returned object (`none` when the grid has no such cell) and `bins` after the
call. -/
def objectLocal (self : BinnedArrayXD α V2 V3) (lposition : V2) (bins : BinTriple) :
    Option (Option α) × BinTriple :=
  match self.m_binUtility with
  | some bu =>
    let bdim := bu.dimensions
    let bins2 := if bdim > 2 then bu.binLocal lposition 2 else 0
    let bins1 := if bdim > 1 then bu.binLocal lposition 1 else 0
    let bins0 := bu.binLocal lposition 0
    (gridAt self.m_objectGrid bins2 bins1 bins0, (bins0, bins1, bins2))
  | none => (gridAt self.m_objectGrid 0 0 0, bins)

/-- The query `object(const Vector3D& position, std::array<size_t, 3>& bins)`: the
returned object (`none` when the grid has no such cell) and `bins` after the
call. -/
def object (self : BinnedArrayXD α V2 V3) (position : V3) (bins : BinTriple) :
    Option (Option α) × BinTriple :=
  match self.m_binUtility with
  | some bu =>
    let bdim := bu.dimensions
    let bins2 := if bdim > 2 then bu.bin position 2 else 0
    let bins1 := if bdim > 1 then bu.bin position 1 else 0
    let bins0 := bu.bin position 0
    (gridAt self.m_objectGrid bins2 bins1 bins0, (bins0, bins1, bins2))
  | none => (gridAt self.m_objectGrid 0 0 0, bins)

/-- The accessor `arrayObjects()`. -/
def arrayObjects (self : BinnedArrayXD α V2 V3) : List (Option α) :=
  self.m_arrayObjects

/-- The accessor `objectGrid()`. -/
def objectGrid (self : BinnedArrayXD α V2 V3) : ObjectGrid α :=
  self.m_objectGrid

/-- The accessor `binUtility()`. -/
def binUtility (self : BinnedArrayXD α V2 V3) : Option (BinUtility V2 V3) :=
  self.m_binUtility

end BinnedArrayXD

/-- The distinct non-empty objects held in the cells of a grid: every cell in
scan order, the `nullptr` cells dropped, duplicates removed. -/
def distinctObjects {α : Type} [DecidableEq α] (grid : ObjectGrid α) : List α :=
  (grid.flatten.flatten.filterMap id).dedup

/-! ## The claims' vocabulary -/

/-- Modelled from the spec: the code of `BinUtility` is not part of this
header. "The BinUtility maps the global position to the bin triple": the
triple is `binTriple(position)`, it lists the bins `bin(position, axis)` of
the three axes, and an axis at or beyond `dimensions()` has bin 0 (the
header's comment at the `binTriple` call: "if the bingen dimension is
smaller 1,2 it will provide 0"). -/
def BinUtility.mapsTo {V2 V3 : Type} (bu : BinUtility V2 V3) (position : V3)
    (triple : BinTriple) : Prop :=
  bu.binTriple position = triple
    ∧ triple = (bu.bin position 0, bu.bin position 1, bu.bin position 2)
    ∧ ∀ axis, axis < 3 → bu.dimensions ≤ axis → bu.bin position axis = 0

/-- Modelled from the spec: the code of `BinUtility` is not part of this
header. "The BinUtility maps the local position to the bin triple": the
triple lists the bins `bin(lposition, axis)` of the three axes, and an axis
at or beyond `dimensions()` has bin 0. -/
def BinUtility.mapsLocalTo {V2 V3 : Type} (bu : BinUtility V2 V3) (lposition : V2)
    (triple : BinTriple) : Prop :=
  triple = (bu.binLocal lposition 0, bu.binLocal lposition 1, bu.binLocal lposition 2)
    ∧ ∀ axis, axis < 3 → bu.dimensions ≤ axis → bu.binLocal lposition axis = 0

/-- The object of the last pair of `tapvector`, in list order, whose position
is inside the domain and has the bin triple `triple`; `nullptr` when there is
no such pair. -/
def lastObjectAt {α V2 V3 : Type} (bu : BinUtility V2 V3)
    (tapvector : List (Option α × V3)) (triple : BinTriple) : Option α :=
  match (tapvector.filter fun tap =>
      bu.inside tap.2 && decide (bu.binTriple tap.2 = triple)).getLast? with
  | some tap => tap.1
  | none => none

/-! ## Concrete inputs -/

/-- A one-dimensional bin utility with two bins over positions that are
natural numbers: positions below 10 are inside, the bin is the parity. -/
def parityBins : BinUtility Nat Nat :=
  { bins := fun axis => if axis = 0 then 2 else 1
    inside := fun position => decide (position < 10)
    binTriple := fun position => (position % 2, 0, 0)
    bin := fun position axis => if axis = 0 then position % 2 else 0
    binLocal := fun lposition axis => if axis = 0 then lposition % 2 else 0
    dimensions := 1 }

/-- A pair list for `parityBins`: two objects in bin 1, then one in bin 0, one
outside the domain, and again one in bin 0. -/
def parityPairs : List (Option Nat × Nat) :=
  [(some 11, 1), (some 12, 3), (some 13, 0), (some 14, 10), (some 15, 2)]

/-! ## SurfaceCollector.hpp: the callable of `debugLog`, and a propagation -/

/-- The private `SurfaceCollector::debugLog` once more, with the callable
`logAction` as a `std::function` that has an environment of its own (of type
`E`, for instance a count of its invocations): a call of `logAction` takes
the environment and gives the message and the environment after the call.
The result is the propagator state and the environment after `debugLog`. -/
def debugLogCalling {S E : Type} (state : PropagatorState S) (logAction : E → String × E)
    (env : E) : PropagatorState S × E :=
  if state.options.debug then
    let dstream : String := "   " ++ setw state.options.debugPfxWidth "surface collector" ++ " | "
    let called := logAction env
    let dstream : String := dstream ++ setw state.options.debugMsgWidth called.1 ++ "\n"
    ({ state with options := { state.options with
        debugString := state.options.debugString ++ dstream } }, called.2)
  else
    (state, env)

/-- The number of newline characters of a string. -/
def newlines (s : String) : Nat :=
  s.data.count (Char.ofNat 10)

/-- The action list of one propagation reduced to the collector: the
three-argument call once per step, on the state of that step, in order, the
result handed from step to step. -/
def SurfaceCollector.collect {S V : Type} (self : SurfaceCollector)
    (geoIDStream : Nat → String) (stepper : Stepper S V) (steps : List (PropagatorState S))
    (result : this_result V) : this_result V :=
  steps.foldl (fun result state => (self.call geoIDStream state stepper result).2) result

/-- The hit of one step: the hit of `currentSurface` with the stepper's
position and direction when the surface is present and selected, and none
otherwise. -/
def SurfaceCollector.hitOf {S V : Type} (self : SurfaceCollector) (stepper : Stepper S V)
    (state : PropagatorState S) : Option (SurfaceHit V) :=
  match state.navigation.currentSurface with
  | some currentSurface =>
    if self.selector currentSurface then
      some { surface := some currentSurface
             position := stepper.position state.stepping
             direction := stepper.direction state.stepping }
    else
      none
  | none => none

/-! ## BinnedArrayXD.hpp: the public queries as operations -/

/-- The public `const` member functions of `BinnedArrayXD`, with their
arguments. -/
inductive Query (V2 V3 : Type) where
  | objectLocal (lposition : V2)
  | object (position : V3)
  | arrayObjects
  | objectGrid
  | binUtility

/-- One public query as an operation on the array and on the caller's `bins`:
the array and `bins` after the call. Every query is a `const` member function
and assigns no data member; only the two `object` overloads write `bins`. -/
def BinnedArrayXD.afterQuery {α V2 V3 : Type} (self : BinnedArrayXD α V2 V3)
    (bins : BinTriple) : Query V2 V3 → BinnedArrayXD α V2 V3 × BinTriple
  | .objectLocal lposition => (self, (self.objectLocal lposition bins).2)
  | .object position => (self, (self.object position bins).2)
  | .arrayObjects => (self, bins)
  | .objectGrid => (self, bins)
  | .binUtility => (self, bins)

/-- A sequence of public queries, one after the other. -/
def BinnedArrayXD.afterQueries {α V2 V3 : Type} (self : BinnedArrayXD α V2 V3)
    (bins : BinTriple) (queries : List (Query V2 V3)) : BinnedArrayXD α V2 V3 × BinTriple :=
  queries.foldl (fun acc query => acc.1.afterQuery acc.2 query) (self, bins)

/-- The first occurrences of a list: every element is kept where it occurs
first and dropped where it occurs again. -/
def firstOccurrences {β : Type} [DecidableEq β] : List β → List β
  | [] => []
  | b :: rest => b :: (firstOccurrences rest).filter (fun c => decide (c ≠ b))

/-- The cells of a grid in scan order: the outermost index `[i2]` first, then
`[i1]`, then `[i0]`. -/
def cellsInScanOrder {α : Type} (grid : ObjectGrid α) : List (Option α) :=
  grid.flatten.flatten

/-! ## StraightLineStepper.cpp -/

/-- The two Eigen member functions of `Vector3D` that the stepper calls:
`norm()` and `normalized()`. Their code is not part of this file, so each is
a field; `R` is the type of `double`. -/
structure VectorOps (V R : Type) where
  norm : V → R
  normalized : V → V

/-- The accessors of `BoundParameters` that `update` calls: `position()`,
`momentum()`, `time()`, and `covariance()`, which is an optional. -/
structure BoundParameters (V R C : Type) where
  position : V
  momentum : V
  time : R
  covariance : Option C

namespace StraightLineStepper

/-- The stepper state `StraightLineStepper::State`: the members `pos`, `dir`,
`p`, `t` and `cov` that `update` assigns, the accumulated path length, the
step size, and the remaining members together as `rest`. -/
structure State (V R C Z : Type) where
  pos : V
  dir : V
  p : R
  t : R
  cov : C
  pathAccumulated : R
  stepSize : R
  rest : Z

variable {V R C Z : Type}

/-- The overload `update(State& state, const BoundParameters& pars)`. -/
def update (ops : VectorOps V R) (state : State V R C Z) (pars : BoundParameters V R C) :
    State V R C Z :=
  let mom := pars.momentum
  let state := { state with pos := pars.position }
  let state := { state with dir := ops.normalized mom }
  let state := { state with p := ops.norm mom }
  let state := { state with t := pars.time }
  match pars.covariance with
  | some covariance => { state with cov := covariance }
  | none => state

/-- The overload `update(State& state, const Vector3D& uposition,
const Vector3D& udirection, double up, double time)`. -/
def updateDirect (state : State V R C Z) (uposition udirection : V) (up time : R) :
    State V R C Z :=
  let state := { state with pos := uposition }
  let state := { state with dir := udirection }
  let state := { state with p := up }
  { state with t := time }

/-- The member function `boundState(State& state, const Surface& surface)`:
it returns what `detail::boundState(state, surface)` returns, a
`std::tuple<BoundParameters, BoundMatrix, double>` (the type `T`). The code of
`detail::boundState` is not part of this file, so it is a parameter. -/
def boundState {St Sf T : Type} (detailBoundState : St → Sf → T) (state : St)
    (surface : Sf) : T :=
  detailBoundState state surface

/-- The member function `curvilinearState(State& state)`: it returns what
`detail::curvilinearState(state)` returns. -/
def curvilinearState {St T : Type} (detailCurvilinearState : St → T) (state : St) : T :=
  detailCurvilinearState state

end StraightLineStepper

/-- A propagator state with the debug output switched off, at the position
`x` on the x axis with direction `(1, 0, 0)`, on the surface `surface`. -/
def stepAt (x : Int) (surface : Option Surface) :
    PropagatorState ((Int × Int × Int) × (Int × Int × Int)) :=
  { options := { debug := false, debugString := "", debugPfxWidth := 30, debugMsgWidth := 50 }
    navigation := { currentSurface := surface }
    stepping := ((x, 0, 0), (1, 0, 0)) }

/-- The stepper queries on a stepping state that is the pair of position and
direction. -/
def pairStepper : Stepper ((Int × Int × Int) × (Int × Int × Int)) (Int × Int × Int) :=
  { position := fun stepping => stepping.1
    direction := fun stepping => stepping.2 }

/-- A sensitive surface with the geometry identifier `geoID`. -/
def sensitiveSurface (geoID : Nat) : Surface :=
  { associatedDetectorElement := some geoID, surfaceMaterial := none, geoID := geoID }

/-- A passive surface (no detector element, no material). -/
def passiveSurface (geoID : Nat) : Surface :=
  { associatedDetectorElement := none, surfaceMaterial := none, geoID := geoID }

/-- The vectors on a line: an integer coordinate, its absolute value for
`norm()`, its sign for `normalized()`. -/
def lineOps : VectorOps Int Nat :=
  { norm := Int.natAbs, normalized := Int.sign }

/-- A stepper state on the line, with nothing accumulated. -/
def lineState (pos dir : Int) (p t cov : Nat) : StraightLineStepper.State Int Nat Nat Unit :=
  { pos := pos, dir := dir, p := p, t := t, cov := cov, pathAccumulated := 0, stepSize := 1,
    rest := () }

/-- A bound parameter set on the line. -/
def linePars (position momentum : Int) (time : Nat) (covariance : Option Nat) :
    BoundParameters Int Nat Nat :=
  { position := position, momentum := momentum, time := time, covariance := covariance }

/-- What a caller of `boundState` can be handed in the words of the
specification: a `(BoundParameters, Jacobian, pathLength)` triple, or the
failure "invalid local position", which is no triple. -/
inductive BoundStateReport (T : Type) where
  | triple (value : T)
  | invalidLocalPosition

/-- What `StraightLineStepper::boundState` hands back, as such a report: its
return type is the plain `std::tuple`, so it is the triple that was returned. -/
def StraightLineStepper.boundStateReport {St Sf T : Type} (detailBoundState : St → Sf → T)
    (state : St) (surface : Sf) : BoundStateReport T :=
  .triple (StraightLineStepper.boundState detailBoundState state surface)

/-- A surface on the line: the positions within its bounds are those of
absolute value at most `halfWidth`. -/
structure LineSurface where
  halfWidth : Nat

/-- The bounds test of a surface on the line. -/
def LineSurface.insideBounds (surface : LineSurface) (position : Int) : Bool :=
  decide (position.natAbs ≤ surface.halfWidth)

/-! ## materialPlotHelper.cpp -/

/-- The accessors `volume()`, `boundary()`, `layer()`, `approach()` and
`sensitive()` of `Acts::GeometryID`, each as a function of the 64-bit value
of the identifier. The class is not part of this file, so each is a field. -/
structure GeometryIDAccess where
  volume : Nat → Nat
  boundary : Nat → Nat
  layer : Nat → Nat
  approach : Nat → Nat
  sensitive : Nat → Nat

/-- The text that `operator<<(std::ostream& os, Acts::GeometryID id)` writes to
a stream in its initial state: every field is an unsigned integer, printed in
decimal under `std::setw`. -/
def GeometryID.toStream (access : GeometryIDAccess) (id : Nat) : String :=
  let os : String := "[ " ++ setw 3 (toString (access.volume id))
  let os : String := os ++ " | " ++ setw 3 (toString (access.boundary id))
  let os : String := os ++ " | " ++ setw 3 (toString (access.layer id))
  let os : String := os ++ " | " ++ setw 3 (toString (access.approach id))
  os ++ " | " ++ setw 4 (toString (access.sensitive id)) ++ " ]"

/-- Whether the characters `s` begin with the characters `str`. -/
def startsWith : List Char → List Char → Bool
  | _, [] => true
  | [], _ :: _ => false
  | c :: s, d :: str => c == d && startsWith s str

/-- The member `std::string::find(str)` on the characters of a string: the
first position at which `str` occurs, `none` for `npos`. -/
def strFind (str : List Char) : List Char → Option Nat
  | [] => if startsWith [] str then some 0 else none
  | c :: rest =>
    if startsWith (c :: rest) str then some 0 else (strFind str rest).map (fun pos => pos + 1)

/-- The number of positions of a string at which `str` occurs. -/
def countOccurrences (str : List Char) : List Char → Nat
  | [] => 0
  | c :: rest => (if startsWith (c :: rest) str then 1 else 0) + countOccurrences str rest

/-- The `while` loop of `Initialise_info` on `Id_temp` and `Ids`: as long as
`find` finds the delimiter, the text before it is pushed to `Ids` and erased
from `Id_temp` together with the delimiter. The loop is run for at most
`fuel` rounds; `none` when they do not suffice. -/
def splitLoop (delimiter : List Char) :
    Nat → List Char → List (List Char) → Option (List (List Char) × List Char)
  | 0, _, _ => none
  | fuel + 1, Id_temp, Ids =>
    match strFind delimiter Id_temp with
    | some del_pos =>
      splitLoop delimiter fuel (Id_temp.drop (del_pos + delimiter.length))
        (Ids ++ [Id_temp.take del_pos])
    | none => some (Ids, Id_temp)

/-- The three erase-remove statements of the `for` loop on one string: the
blanks, the opening and the closing brackets are removed. -/
def eraseBlanksAndBrackets (s : List Char) : List Char :=
  let s := s.filter (fun c => c != ' ')
  let s := s.filter (fun c => c != '[')
  s.filter (fun c => c != ']')

/-- The loop `for (int tag = 0; tag < 5; tag++)` of `Initialise_info`, with
`rounds` rounds left at the index `tag`: `Ids[tag]` is cleaned in place;
`none` when `tag` is outside `Ids`. -/
def eraseLoop : Nat → Nat → List (List Char) → Option (List (List Char))
  | 0, _, Ids => some Ids
  | rounds + 1, tag, Ids =>
    match Ids[tag]? with
    | some s => eraseLoop rounds (tag + 1) (Ids.set tag (eraseBlanksAndBrackets s))
    | none => none

/-- The `struct sinfo`; `F` is the type of `float`. -/
structure sinfo (F : Type) where
  name : String
  idname : String
  id : String
  type : Int
  pos : F
  range_min : F
  range_max : F

/-- The function `Initialise_info`. The map `surface_name` is the function
from a key to its value, `none` for a key that `find` does not find. The
`while` loop erases at least the delimiter in every round, so it is given as
many rounds as `Id_temp` has characters, and one more. The result is `none`
when an index into `Ids` is outside the vector. -/
def Initialise_info {F : Type} (access : GeometryIDAccess) (surface_info : sinfo F)
    (surface_name : String → Option String) (id : Nat) (type : Int)
    (pos range_min range_max : F) : Option (sinfo F) :=
  let surface_id : String := GeometryID.toStream access id
  let Id_temp : List Char := surface_id.data
  let delimiter : List Char := " | ".data
  match splitLoop delimiter (Id_temp.length + 1) Id_temp [] with
  | none => none
  | some (Ids, Id_temp) =>
    let Ids := Ids ++ [Id_temp]
    match eraseLoop 5 0 Ids with
    | none => none
    | some Ids =>
      match Ids[0]?, Ids[1]?, Ids[2]?, Ids[3]? with
      | some ids0, some ids1, some ids2, some ids3 =>
        some { surface_info with
          idname := String.mk ("v".data ++ ids0 ++ "_b".data ++ ids1 ++ "_l".data ++ ids2
            ++ "_a".data ++ ids3)
          type := type
          name := (surface_name surface_id).getD ""
          id := surface_id
          pos := pos
          range_min := range_min
          range_max := range_max }
      | _, _, _, _ => none

/-- A layout of the five fields in the 64-bit value, from the most
significant bits down: 8 bits of volume, 8 of boundary, 12 of layer, 8 of
approach, 28 of sensitive. -/
def bitFieldAccess : GeometryIDAccess :=
  { volume := fun id => id / 2 ^ 56 % 2 ^ 8
    boundary := fun id => id / 2 ^ 48 % 2 ^ 8
    layer := fun id => id / 2 ^ 36 % 2 ^ 12
    approach := fun id => id / 2 ^ 28 % 2 ^ 8
    sensitive := fun id => id % 2 ^ 28 }

/-! ## Theorems: SurfaceSelector and SurfaceCollector -/

/-- C1: for every selector and every surface the call operator returns
`(selectSensitive ∧ hasSensor) ∨ (selectMaterial ∧ hasMaterial) ∨ selectPassive`,
where `hasSensor` and `hasMaterial` say that the detector-element and the
material pointer are not null; with all three flags false it returns false
for every surface. -/
theorem SurfaceSelector.call_eq_logic_table :
    (∀ (self : SurfaceSelector) (surface : Surface),
      self.call surface
        = ((self.selectSensitive && surface.associatedDetectorElement.isSome)
            || (self.selectMaterial && surface.surfaceMaterial.isSome)
            || self.selectPassive))
    ∧ (∀ surface : Surface,
        ({ selectSensitive := false, selectMaterial := false, selectPassive := false }
          : SurfaceSelector).call surface = false) := by
  refine ⟨?_, ?_⟩
  · rintro ⟨sSensitive, sMaterial, sPassive⟩ ⟨element, material, geoID⟩
    cases sSensitive <;> cases sMaterial <;> cases sPassive <;>
      cases element <;> cases material <;> simp [SurfaceSelector.call]
  · rintro ⟨element, material, geoID⟩
    cases element <;> cases material <;> simp [SurfaceSelector.call]

/-- C2: when `currentSurface` is present and the selector accepts it, the
three-argument call keeps every hit collected before, in place, and appends
as new last element the hit made of `currentSurface`, the stepper's position
and the stepper's direction. -/
theorem SurfaceCollector.call_appends_hit {S V : Type} (self : SurfaceCollector)
    (geoIDStream : Nat → String) (state : PropagatorState S) (stepper : Stepper S V)
    (result : this_result V) (currentSurface : Surface)
    (hcur : state.navigation.currentSurface = some currentSurface)
    (hsel : self.selector currentSurface = true) :
    (self.call geoIDStream state stepper result).2.collected
      = result.collected ++
          [{ surface := some currentSurface
             position := stepper.position state.stepping
             direction := stepper.direction state.stepping }] := by
  simp [SurfaceCollector.call, hcur, hsel]

/-- C2, at a concrete state: one earlier hit, a sensitive current surface, the
default selector. -/
theorem SurfaceCollector.call_appends_hit_witness :
    (((SurfaceCollector.ofSelector {}).call (fun _ => "")
        ({ options := { debug := true, debugString := "", debugPfxWidth := 30,
                        debugMsgWidth := 50 }
           navigation := { currentSurface := some ⟨some 7, none, 42⟩ }
           stepping := ((1 : Int), (0 : Int)) } : PropagatorState (Int × Int))
        ({ position := fun s => s.1, direction := fun s => s.2 } : Stepper (Int × Int) Int)
        { collected := [⟨none, 5, 6⟩] }).2.collected
      = [⟨none, 5, 6⟩] ++ [⟨some ⟨some 7, none, 42⟩, 1, 0⟩]) :=
  SurfaceCollector.call_appends_hit (SurfaceCollector.ofSelector {}) (fun _ => "")
    _ _ _ ⟨some 7, none, 42⟩ rfl (by decide)

/-- C3: one three-argument call never shortens `collected`; the length grows
by exactly one when `currentSurface` is present and selected, and the
sequence is left identical when `currentSurface` is absent or rejected. -/
theorem SurfaceCollector.call_length {S V : Type} (self : SurfaceCollector)
    (geoIDStream : Nat → String) (state : PropagatorState S) (stepper : Stepper S V)
    (result : this_result V) :
    result.collected.length ≤ (self.call geoIDStream state stepper result).2.collected.length
    ∧ ((∃ surface, state.navigation.currentSurface = some surface
          ∧ self.selector surface = true) →
        (self.call geoIDStream state stepper result).2.collected.length
          = result.collected.length + 1)
    ∧ ((state.navigation.currentSurface = none
          ∨ ∃ surface, state.navigation.currentSurface = some surface
              ∧ self.selector surface = false) →
        (self.call geoIDStream state stepper result).2.collected = result.collected) := by
  cases hcur : state.navigation.currentSurface with
  | none => simp [SurfaceCollector.call, hcur]
  | some surface =>
    cases hsel : self.selector surface <;> simp [SurfaceCollector.call, hcur, hsel]

/-! ## Lemmas: the grid and the object list -/

section GridLemmas
variable {α : Type}

theorem gridSet_eq_some_iff (grid : ObjectGrid α) (i2 i1 i0 : Nat) (object : Option α)
    (grid' : ObjectGrid α) :
    gridSet grid i2 i1 i0 object = some grid' ↔
      ∃ plane row, grid[i2]? = some plane ∧ plane[i1]? = some row ∧ i0 < row.length
        ∧ grid' = grid.set i2 (plane.set i1 (row.set i0 object)) := by
  cases h2 : grid[i2]? with
  | none => simp [gridSet, h2]
  | some plane =>
    cases h1 : plane[i1]? with
    | none => simp [gridSet, h2, h1]
    | some row =>
      by_cases h0 : i0 < row.length
      · simp [gridSet, h2, h1, h0, eq_comm]
      · simp [gridSet, h2, h1, h0]

theorem gridAt_gridSet_same {grid grid' : ObjectGrid α} {i2 i1 i0 : Nat} {object : Option α}
    (h : gridSet grid i2 i1 i0 object = some grid') :
    gridAt grid' i2 i1 i0 = some object := by
  obtain ⟨plane, row, h2, h1, h0, rfl⟩ := (gridSet_eq_some_iff _ _ _ _ _ _).1 h
  have l2 : i2 < grid.length := (List.getElem?_eq_some_iff.1 h2).1
  have l1 : i1 < plane.length := (List.getElem?_eq_some_iff.1 h1).1
  simp [gridAt, l2, l1, h0]

theorem gridAt_gridSet_other {grid grid' : ObjectGrid α} {i2 i1 i0 : Nat} {object : Option α}
    (h : gridSet grid i2 i1 i0 object = some grid') (j2 j1 j0 : Nat)
    (hne : (j0, j1, j2) ≠ (i0, i1, i2)) :
    gridAt grid' j2 j1 j0 = gridAt grid j2 j1 j0 := by
  obtain ⟨plane, row, h2, h1, h0, rfl⟩ := (gridSet_eq_some_iff _ _ _ _ _ _).1 h
  have l2 : i2 < grid.length := (List.getElem?_eq_some_iff.1 h2).1
  have l1 : i1 < plane.length := (List.getElem?_eq_some_iff.1 h1).1
  unfold gridAt
  by_cases e2 : i2 = j2
  · subst e2
    by_cases e1 : i1 = j1
    · subst e1
      have e0 : i0 ≠ j0 := by
        rintro rfl
        exact hne rfl
      simp [l2, l1, h2, h1, List.getElem?_set_ne e0]
    · simp [l2, h2, List.getElem?_set_ne e1]
  · simp [List.getElem?_set_ne e2]

end GridLemmas

section FillLemmas
variable {α V2 V3 : Type}

theorem gridAt_emptyGrid (bu : BinUtility V2 V3) (i2 i1 i0 : Nat) :
    gridAt (BinnedArrayXD.emptyGrid bu : ObjectGrid α) i2 i1 i0
      = if i2 < bu.bins 2 ∧ i1 < bu.bins 1 ∧ i0 < bu.bins 0 then some none else none := by
  by_cases h2 : i2 < bu.bins 2 <;> by_cases h1 : i1 < bu.bins 1 <;>
    by_cases h0 : i0 < bu.bins 0 <;>
    simp [gridAt, BinnedArrayXD.emptyGrid, List.getElem?_replicate, h2, h1, h0]

theorem gridSet_isSome_iff (grid : ObjectGrid α) (i2 i1 i0 : Nat) (object : Option α) :
    (gridSet grid i2 i1 i0 object).isSome = (gridAt grid i2 i1 i0).isSome := by
  cases h2 : grid[i2]? with
  | none => simp [gridSet, gridAt, h2]
  | some plane =>
    cases h1 : plane[i1]? with
    | none => simp [gridSet, gridAt, h2, h1]
    | some row =>
      by_cases h0 : i0 < row.length
      · simp [gridSet, gridAt, h2, h1, h0]
      · simp [gridSet, gridAt, h2, h1, h0]
        omega

theorem gridAt_isSome_gridSet {grid grid' : ObjectGrid α} {i2 i1 i0 : Nat} {object : Option α}
    (h : gridSet grid i2 i1 i0 object = some grid') (j2 j1 j0 : Nat) :
    (gridAt grid' j2 j1 j0).isSome = (gridAt grid j2 j1 j0).isSome := by
  by_cases hj : (j0, j1, j2) = (i0, i1, i2)
  · cases hj
    rw [gridAt_gridSet_same h, ← gridSet_isSome_iff grid i2 i1 i0 object, h]
    rfl
  · rw [gridAt_gridSet_other h j2 j1 j0 hj]

/-- The pairs of `tapvector` that the loop writes to the cell `bins`. -/
theorem fillPairs_gridAt [DecidableEq α] (bu : BinUtility V2 V3)
    (tapvector : List (Option α × V3)) :
    ∀ (grid : ObjectGrid α) (arrayObjects : List (Option α)) (grid' : ObjectGrid α)
      (arrayObjects' : List (Option α)),
      BinnedArrayXD.fillPairs bu tapvector (grid, arrayObjects) = some (grid', arrayObjects') →
      ∀ i0 i1 i2 : Nat,
        gridAt grid' i2 i1 i0
          = match (tapvector.filter fun tap =>
                bu.inside tap.2 && decide (bu.binTriple tap.2 = (i0, i1, i2))).getLast? with
            | some tap => some tap.1
            | none => gridAt grid i2 i1 i0 := by
  induction tapvector with
  | nil =>
    intro grid arrayObjects grid' arrayObjects' h i0 i1 i2
    simp only [BinnedArrayXD.fillPairs, Option.some.injEq, Prod.mk.injEq] at h
    simp [h.1]
  | cons tap rest ih =>
    intro grid arrayObjects grid' arrayObjects' h i0 i1 i2
    by_cases hin : bu.inside tap.2 = true
    · simp only [BinnedArrayXD.fillPairs, hin, if_true] at h
      cases hset : gridSet grid (bu.binTriple tap.2).2.2 (bu.binTriple tap.2).2.1
          (bu.binTriple tap.2).1 tap.1 with
      | none => simp [hset] at h
      | some grid1 =>
        simp only [hset] at h
        have hrec := ih grid1 _ grid' arrayObjects' h i0 i1 i2
        rw [hrec]
        by_cases hm : bu.binTriple tap.2 = (i0, i1, i2)
        · have hsame : gridAt grid1 i2 i1 i0 = some tap.1 := by
            have := gridAt_gridSet_same hset
            rw [hm] at this
            exact this
          simp only [List.filter_cons, hin, hm, decide_True, Bool.and_self, if_true,
            List.getLast?_cons]
          cases hl : (rest.filter fun tap =>
              bu.inside tap.2 && decide (bu.binTriple tap.2 = (i0, i1, i2))).getLast? with
          | none => simp [hsame]
          | some t => simp
        · have hother : gridAt grid1 i2 i1 i0 = gridAt grid i2 i1 i0 := by
            apply gridAt_gridSet_other hset
            intro he
            exact hm he.symm
          simp [List.filter_cons, hin, hm, hother]
    · simp only [BinnedArrayXD.fillPairs, hin] at h
      have hrec := ih grid _ grid' arrayObjects' h i0 i1 i2
      rw [hrec]
      simp [List.filter_cons, hin]

end FillLemmas

section ObjectListLemmas
variable {α V2 V3 : Type}

theorem mem_pushUnique [DecidableEq α] (arrayObjects : List (Option α)) (object o : Option α) :
    o ∈ pushUnique arrayObjects object ↔ o ∈ arrayObjects ∨ o = object := by
  unfold pushUnique
  split
  · constructor
    · intro h
      exact Or.inl h
    · rintro (h | rfl)
      · exact h
      · assumption
  · simp

theorem nodup_pushUnique [DecidableEq α] (arrayObjects : List (Option α)) (object : Option α)
    (h : arrayObjects.Nodup) : (pushUnique arrayObjects object).Nodup := by
  unfold pushUnique
  split
  · exact h
  · rename_i hnot
    rw [List.nodup_append]
    refine ⟨h, List.nodup_singleton _, ?_⟩
    intro a ha hb
    rw [List.mem_singleton] at hb
    subst hb
    exact hnot ha

theorem fillPairs_nodup [DecidableEq α] (bu : BinUtility V2 V3)
    (tapvector : List (Option α × V3)) :
    ∀ (grid : ObjectGrid α) (arrayObjects : List (Option α)) (grid' : ObjectGrid α)
      (arrayObjects' : List (Option α)),
      BinnedArrayXD.fillPairs bu tapvector (grid, arrayObjects) = some (grid', arrayObjects') →
      arrayObjects.Nodup → arrayObjects'.Nodup := by
  induction tapvector with
  | nil =>
    intro grid arrayObjects grid' arrayObjects' h hnd
    simp only [BinnedArrayXD.fillPairs, Option.some.injEq, Prod.mk.injEq] at h
    rw [← h.2]
    exact hnd
  | cons tap rest ih =>
    intro grid arrayObjects grid' arrayObjects' h hnd
    by_cases hin : bu.inside tap.2 = true
    · simp only [BinnedArrayXD.fillPairs, hin, if_true] at h
      cases hset : gridSet grid (bu.binTriple tap.2).2.2 (bu.binTriple tap.2).2.1
          (bu.binTriple tap.2).1 tap.1 with
      | none => simp [hset] at h
      | some grid1 =>
        simp only [hset] at h
        exact ih grid1 _ grid' arrayObjects' h (nodup_pushUnique _ _ hnd)
    · simp only [BinnedArrayXD.fillPairs, hin] at h
      exact ih grid _ grid' arrayObjects' h hnd

theorem fillPairs_mem [DecidableEq α] (bu : BinUtility V2 V3)
    (tapvector : List (Option α × V3)) :
    ∀ (grid : ObjectGrid α) (arrayObjects : List (Option α)) (grid' : ObjectGrid α)
      (arrayObjects' : List (Option α)),
      BinnedArrayXD.fillPairs bu tapvector (grid, arrayObjects) = some (grid', arrayObjects') →
      ∀ o : Option α, o ∈ arrayObjects' ↔
        o ∈ arrayObjects ∨ ∃ tap ∈ tapvector, bu.inside tap.2 = true ∧ tap.1 = o := by
  induction tapvector with
  | nil =>
    intro grid arrayObjects grid' arrayObjects' h o
    simp only [BinnedArrayXD.fillPairs, Option.some.injEq, Prod.mk.injEq] at h
    simp [h.2]
  | cons tap rest ih =>
    intro grid arrayObjects grid' arrayObjects' h o
    by_cases hin : bu.inside tap.2 = true
    · simp only [BinnedArrayXD.fillPairs, hin, if_true] at h
      cases hset : gridSet grid (bu.binTriple tap.2).2.2 (bu.binTriple tap.2).2.1
          (bu.binTriple tap.2).1 tap.1 with
      | none => simp [hset] at h
      | some grid1 =>
        simp only [hset] at h
        rw [ih grid1 _ grid' arrayObjects' h o, mem_pushUnique]
        simp only [List.mem_cons, exists_eq_or_imp, hin, true_and]
        constructor
        · rintro ((h1 | h1) | h1)
          · exact Or.inl h1
          · exact Or.inr (Or.inl h1.symm)
          · exact Or.inr (Or.inr h1)
        · rintro (h1 | h1 | h1)
          · exact Or.inl (Or.inl h1)
          · exact Or.inl (Or.inr h1.symm)
          · exact Or.inr h1
    · simp only [BinnedArrayXD.fillPairs, hin] at h
      rw [ih grid _ grid' arrayObjects' h o]
      simp [hin]

theorem fillPairs_isSome [DecidableEq α] (bu : BinUtility V2 V3)
    (tapvector : List (Option α × V3)) :
    ∀ (grid : ObjectGrid α) (arrayObjects : List (Option α)),
      (∀ tap ∈ tapvector, bu.inside tap.2 = true →
        (gridAt grid (bu.binTriple tap.2).2.2 (bu.binTriple tap.2).2.1
          (bu.binTriple tap.2).1).isSome = true) →
      (BinnedArrayXD.fillPairs bu tapvector (grid, arrayObjects)).isSome = true := by
  induction tapvector with
  | nil =>
    intro grid arrayObjects _
    simp [BinnedArrayXD.fillPairs]
  | cons tap rest ih =>
    intro grid arrayObjects hr
    by_cases hin : bu.inside tap.2 = true
    · have h1 := hr tap (List.mem_cons_self _ _) hin
      rw [← gridSet_isSome_iff grid _ _ _ tap.1] at h1
      obtain ⟨grid1, hset⟩ := Option.isSome_iff_exists.1 h1
      simp only [BinnedArrayXD.fillPairs, hin, if_true, hset]
      apply ih
      intro t ht hti
      rw [gridAt_isSome_gridSet hset]
      exact hr t (List.mem_cons_of_mem _ ht) hti
    · simp only [BinnedArrayXD.fillPairs, hin]
      apply ih
      intro t ht hti
      exact hr t (List.mem_cons_of_mem _ ht) hti

theorem fillPairs_filter_inside [DecidableEq α] (bu : BinUtility V2 V3)
    (tapvector : List (Option α × V3)) :
    ∀ acc : ObjectGrid α × List (Option α),
      BinnedArrayXD.fillPairs bu (tapvector.filter fun tap => bu.inside tap.2) acc
        = BinnedArrayXD.fillPairs bu tapvector acc := by
  induction tapvector with
  | nil => intro acc; rfl
  | cons tap rest ih =>
    rintro ⟨grid, arrayObjects⟩
    by_cases hin : bu.inside tap.2 = true
    · simp only [List.filter_cons, hin, if_true, BinnedArrayXD.fillPairs]
      cases hset : gridSet grid (bu.binTriple tap.2).2.2 (bu.binTriple tap.2).2.1
          (bu.binTriple tap.2).1 tap.1 with
      | none => rfl
      | some grid1 => exact ih _
    · simp only [List.filter_cons, hin, BinnedArrayXD.fillPairs]
      exact ih _

end ObjectListLemmas

section ScanLemmas
variable {α V2 V3 : Type}

theorem scanRow_mem [DecidableEq α] (o1 : List (Option α)) :
    ∀ (arrayObjects : List (Option α)) (o : Option α),
      o ∈ BinnedArrayXD.scanRow arrayObjects o1 ↔
        o ∈ arrayObjects ∨ (o.isSome = true ∧ o ∈ o1) := by
  induction o1 with
  | nil => intro arrayObjects o; simp [BinnedArrayXD.scanRow]
  | cons o0 rest ih =>
    intro arrayObjects o
    have hstep : BinnedArrayXD.scanRow arrayObjects (o0 :: rest)
        = BinnedArrayXD.scanRow (if o0.isSome then pushUnique arrayObjects o0 else arrayObjects)
            rest := rfl
    rw [hstep, ih]
    by_cases h0 : o0.isSome = true
    · simp only [h0, if_true, mem_pushUnique, List.mem_cons]
      constructor
      · rintro ((h | h) | h)
        · exact Or.inl h
        · exact Or.inr ⟨h ▸ h0, Or.inl h⟩
        · exact Or.inr ⟨h.1, Or.inr h.2⟩
      · rintro (h | ⟨h1, h | h⟩)
        · exact Or.inl (Or.inl h)
        · exact Or.inl (Or.inr h)
        · exact Or.inr ⟨h1, h⟩
    · simp only [h0, List.mem_cons]
      constructor
      · rintro (h | h)
        · exact Or.inl h
        · exact Or.inr ⟨h.1, Or.inr h.2⟩
      · rintro (h | ⟨h1, h | h⟩)
        · exact Or.inl h
        · exact absurd (h ▸ h1) h0
        · exact Or.inr ⟨h1, h⟩

theorem scanRow_nodup [DecidableEq α] (o1 : List (Option α)) :
    ∀ arrayObjects : List (Option α), arrayObjects.Nodup →
      (BinnedArrayXD.scanRow arrayObjects o1).Nodup := by
  induction o1 with
  | nil => intro arrayObjects h; exact h
  | cons o0 rest ih =>
    intro arrayObjects h
    have hstep : BinnedArrayXD.scanRow arrayObjects (o0 :: rest)
        = BinnedArrayXD.scanRow (if o0.isSome then pushUnique arrayObjects o0 else arrayObjects)
            rest := rfl
    rw [hstep]
    apply ih
    split
    · exact nodup_pushUnique _ _ h
    · exact h

theorem scanPlane_mem [DecidableEq α] (o2 : List (List (Option α))) :
    ∀ (arrayObjects : List (Option α)) (o : Option α),
      o ∈ o2.foldl BinnedArrayXD.scanRow arrayObjects ↔
        o ∈ arrayObjects ∨ (o.isSome = true ∧ ∃ o1 ∈ o2, o ∈ o1) := by
  induction o2 with
  | nil => intro arrayObjects o; simp
  | cons o1 rest ih =>
    intro arrayObjects o
    rw [List.foldl_cons, ih, scanRow_mem]
    simp only [List.mem_cons, exists_eq_or_imp]
    tauto

theorem scanPlane_nodup [DecidableEq α] (o2 : List (List (Option α))) :
    ∀ arrayObjects : List (Option α), arrayObjects.Nodup →
      (o2.foldl BinnedArrayXD.scanRow arrayObjects).Nodup := by
  induction o2 with
  | nil => intro arrayObjects h; exact h
  | cons o1 rest ih =>
    intro arrayObjects h
    rw [List.foldl_cons]
    exact ih _ (scanRow_nodup _ _ h)

theorem scanGrid_mem [DecidableEq α] (grid : ObjectGrid α) :
    ∀ (arrayObjects : List (Option α)) (o : Option α),
      o ∈ BinnedArrayXD.scanGrid arrayObjects grid ↔
        o ∈ arrayObjects ∨ (o.isSome = true ∧ ∃ o2 ∈ grid, ∃ o1 ∈ o2, o ∈ o1) := by
  induction grid with
  | nil => intro arrayObjects o; simp [BinnedArrayXD.scanGrid]
  | cons o2 rest ih =>
    intro arrayObjects o
    have hstep : BinnedArrayXD.scanGrid arrayObjects (o2 :: rest)
        = BinnedArrayXD.scanGrid (o2.foldl BinnedArrayXD.scanRow arrayObjects) rest := rfl
    rw [hstep, ih, scanPlane_mem]
    simp only [List.mem_cons, exists_eq_or_imp]
    constructor
    · rintro ((h | ⟨h1, h⟩) | ⟨h1, h⟩)
      · exact Or.inl h
      · exact Or.inr ⟨h1, Or.inl h⟩
      · exact Or.inr ⟨h1, Or.inr h⟩
    · rintro (h | ⟨h1, h | h⟩)
      · exact Or.inl (Or.inl h)
      · exact Or.inl (Or.inr ⟨h1, h⟩)
      · exact Or.inr ⟨h1, h⟩

theorem scanGrid_nodup [DecidableEq α] (grid : ObjectGrid α) :
    ∀ arrayObjects : List (Option α), arrayObjects.Nodup →
      (BinnedArrayXD.scanGrid arrayObjects grid).Nodup := by
  induction grid with
  | nil => intro arrayObjects h; exact h
  | cons o2 rest ih =>
    intro arrayObjects h
    have hstep : BinnedArrayXD.scanGrid arrayObjects (o2 :: rest)
        = BinnedArrayXD.scanGrid (o2.foldl BinnedArrayXD.scanRow arrayObjects) rest := rfl
    rw [hstep]
    exact ih _ (scanPlane_nodup _ _ h)

theorem mem_distinctObjects [DecidableEq α] (grid : ObjectGrid α) (x : α) :
    x ∈ distinctObjects grid ↔ ∃ o2 ∈ grid, ∃ o1 ∈ o2, some x ∈ o1 := by
  simp only [distinctObjects, List.mem_dedup, List.mem_filterMap, List.mem_flatten, id]
  constructor
  · rintro ⟨o, ⟨o1, ⟨o2, h2, h1⟩, h0⟩, rfl⟩
    exact ⟨o2, h2, o1, h1, h0⟩
  · rintro ⟨o2, h2, o1, h1, h0⟩
    exact ⟨some x, ⟨o1, ⟨o2, h2, h1⟩, h0⟩, rfl⟩

theorem mem_cell_iff_gridAt (grid : ObjectGrid α) (v : Option α) :
    (∃ o2 ∈ grid, ∃ o1 ∈ o2, v ∈ o1) ↔ ∃ i2 i1 i0, gridAt grid i2 i1 i0 = some v := by
  constructor
  · rintro ⟨o2, h2, o1, h1, h0⟩
    obtain ⟨i2, e2⟩ := List.mem_iff_getElem?.1 h2
    obtain ⟨i1, e1⟩ := List.mem_iff_getElem?.1 h1
    obtain ⟨i0, e0⟩ := List.mem_iff_getElem?.1 h0
    exact ⟨i2, i1, i0, by simp [gridAt, e2, e1, e0]⟩
  · rintro ⟨i2, i1, i0, h⟩
    unfold gridAt at h
    cases e2 : grid[i2]? with
    | none => simp [e2] at h
    | some o2 =>
      simp only [e2] at h
      cases e1 : o2[i1]? with
      | none => simp [e1] at h
      | some o1 =>
        simp only [e1] at h
        exact ⟨o2, List.mem_iff_getElem?.2 ⟨i2, e2⟩, o1, List.mem_iff_getElem?.2 ⟨i1, e1⟩,
          List.mem_iff_getElem?.2 ⟨i0, h⟩⟩

end ScanLemmas

/-! ## Theorems: BinnedArrayXD -/

section BinnedArrayClaims
variable {α V2 V3 : Type}

/-- C4: for an array with a bin utility and a local or global position that
the bin utility maps to the triple `(i0, i1, i2)`, `object(position, bins)`
returns the element `objectGrid()[i2][i1][i0]` and sets `bins` to
`(i0, i1, i2)`, whatever `bins` held before. -/
theorem BinnedArrayXD.object_at_mapped_triple (self : BinnedArrayXD α V2 V3)
    (bu : BinUtility V2 V3) (hbu : self.binUtility = some bu) (i0 i1 i2 : Nat)
    (bins : BinTriple) :
    (∀ lposition : V2, bu.mapsLocalTo lposition (i0, i1, i2) →
        self.objectLocal lposition bins = (gridAt self.objectGrid i2 i1 i0, (i0, i1, i2)))
    ∧ (∀ position : V3, bu.mapsTo position (i0, i1, i2) →
        self.object position bins = (gridAt self.objectGrid i2 i1 i0, (i0, i1, i2))) := by
  have hbu' : self.m_binUtility = some bu := hbu
  refine ⟨?_, ?_⟩
  · rintro lposition ⟨htriple, hzero⟩
    simp only [Prod.mk.injEq] at htriple
    obtain ⟨e0, e1, e2⟩ := htriple
    have z1 : bu.dimensions ≤ 1 → bu.binLocal lposition 1 = 0 := hzero 1 (by decide)
    have z2 : bu.dimensions ≤ 2 → bu.binLocal lposition 2 = 0 := hzero 2 (by decide)
    have b2 : (if bu.dimensions > 2 then bu.binLocal lposition 2 else 0) = i2 := by
      split
      · exact e2.symm
      · rw [e2, z2 (by omega)]
    have b1 : (if bu.dimensions > 1 then bu.binLocal lposition 1 else 0) = i1 := by
      split
      · exact e1.symm
      · rw [e1, z1 (by omega)]
    simp only [BinnedArrayXD.objectLocal, hbu', b2, b1, ← e0, BinnedArrayXD.objectGrid]
  · rintro position ⟨_, htriple, hzero⟩
    simp only [Prod.mk.injEq] at htriple
    obtain ⟨e0, e1, e2⟩ := htriple
    have z1 : bu.dimensions ≤ 1 → bu.bin position 1 = 0 := hzero 1 (by decide)
    have z2 : bu.dimensions ≤ 2 → bu.bin position 2 = 0 := hzero 2 (by decide)
    have b2 : (if bu.dimensions > 2 then bu.bin position 2 else 0) = i2 := by
      split
      · exact e2.symm
      · rw [e2, z2 (by omega)]
    have b1 : (if bu.dimensions > 1 then bu.bin position 1 else 0) = i1 := by
      split
      · exact e1.symm
      · rw [e1, z1 (by omega)]
    simp only [BinnedArrayXD.object, hbu', b2, b1, ← e0, BinnedArrayXD.objectGrid]

/-- C4, at a concrete array: the grid `[[[20, 21]]]` with `parityBins`, the
global position 3 (bin 1), and `bins` holding `(7, 7, 7)` before the call. -/
theorem BinnedArrayXD.object_at_mapped_triple_witness :
    (BinnedArrayXD.fromGrid [[[some 20, some 21]]] parityBins).object 3 (7, 7, 7)
      = (some (some 21), (1, 0, 0)) :=
  (BinnedArrayXD.object_at_mapped_triple
      (BinnedArrayXD.fromGrid [[[some 20, some 21]]] parityBins) parityBins rfl 1 0 0
      (7, 7, 7)).2 3 ⟨rfl, rfl, by decide⟩

/-- C5: `arrayObjects()` holds no object twice: the single-object constructor
initialises it to the one object (and its body does not write it), and the
pair-list and the grid constructor push an object only when `std::find` does
not find it. -/
theorem BinnedArrayXD.arrayObjects_nodup [DecidableEq α] :
    (∀ object : Option α,
        (BinnedArrayXD.singleInit object : BinnedArrayXD α V2 V3).arrayObjects.Nodup)
    ∧ (∀ (tapvector : List (Option α × V3)) (bu : BinUtility V2 V3)
        (self : BinnedArrayXD α V2 V3),
        BinnedArrayXD.fromPairs tapvector bu = some self → self.arrayObjects.Nodup)
    ∧ (∀ (grid : ObjectGrid α) (bu : BinUtility V2 V3),
        (BinnedArrayXD.fromGrid grid bu : BinnedArrayXD α V2 V3).arrayObjects.Nodup) := by
  refine ⟨?_, ?_, ?_⟩
  · intro object
    exact List.nodup_singleton object
  · intro tapvector bu self h
    unfold BinnedArrayXD.fromPairs at h
    cases hfill : BinnedArrayXD.fillPairs bu tapvector (BinnedArrayXD.emptyGrid bu, []) with
    | none => simp [hfill] at h
    | some acc =>
      obtain ⟨grid, arrayObjects⟩ := acc
      simp only [hfill, Option.some.injEq] at h
      subst h
      exact fillPairs_nodup bu tapvector _ _ _ _ hfill List.nodup_nil
  · intro grid bu
    exact scanGrid_nodup grid [] List.nodup_nil

/-- C6 as stated fails: the pair list of object 1 at position 4 and object 2 at
position 6, both in bin 0 of `parityBins`, is constructed into a grid
holding only object 2, while `arrayObjects()` holds 1 and 2. -/
theorem BinnedArrayXD.arrayObjects_length_counterexample :
    ∃ self : BinnedArrayXD Nat Nat Nat,
      BinnedArrayXD.fromPairs [(some 1, 4), (some 2, 6)] parityBins = some self
        ∧ self.objectGrid = [[[some 2, none]]]
        ∧ self.arrayObjects.length = 2
        ∧ (distinctObjects self.objectGrid).length = 1 :=
  ⟨_, rfl, rfl, rfl, by decide⟩

/-- C6, amended: after the grid construction the size of `arrayObjects()` is
the number of distinct non-empty objects in the cells of `objectGrid()`;
after the pair-list construction it is the number of distinct object values
(`nullptr` counted as one) of the pairs inside the domain, and that is at
least the number of distinct non-empty objects in the cells. -/
theorem BinnedArrayXD.arrayObjects_length [DecidableEq α] :
    (∀ (grid : ObjectGrid α) (bu : BinUtility V2 V3),
        (BinnedArrayXD.fromGrid grid bu : BinnedArrayXD α V2 V3).arrayObjects.length
          = (distinctObjects
              (BinnedArrayXD.fromGrid grid bu : BinnedArrayXD α V2 V3).objectGrid).length)
    ∧ (∀ (tapvector : List (Option α × V3)) (bu : BinUtility V2 V3)
        (self : BinnedArrayXD α V2 V3),
        BinnedArrayXD.fromPairs tapvector bu = some self →
          self.arrayObjects.length
              = (((tapvector.filter fun tap => bu.inside tap.2).map Prod.fst).dedup).length
            ∧ (distinctObjects self.objectGrid).length ≤ self.arrayObjects.length) := by
  refine ⟨?_, ?_⟩
  · intro grid bu
    have hnd : (BinnedArrayXD.scanGrid [] grid).Nodup := scanGrid_nodup grid [] List.nodup_nil
    have hnd' : ((distinctObjects grid).map some).Nodup :=
      (List.nodup_dedup _).map (Option.some_injective α)
    have hperm : (BinnedArrayXD.scanGrid [] grid).Perm ((distinctObjects grid).map some) := by
      rw [List.perm_ext_iff_of_nodup hnd hnd']
      intro o
      rw [scanGrid_mem, List.mem_map]
      constructor
      · rintro (h | ⟨hs, h⟩)
        · simp at h
        · obtain ⟨x, rfl⟩ := Option.isSome_iff_exists.1 hs
          exact ⟨x, (mem_distinctObjects grid x).2 h, rfl⟩
      · rintro ⟨x, hx, rfl⟩
        exact Or.inr ⟨rfl, (mem_distinctObjects grid x).1 hx⟩
    have := hperm.length_eq
    simpa [BinnedArrayXD.fromGrid, BinnedArrayXD.arrayObjects, BinnedArrayXD.objectGrid]
      using this
  · intro tapvector bu self h
    unfold BinnedArrayXD.fromPairs at h
    cases hfill : BinnedArrayXD.fillPairs bu tapvector (BinnedArrayXD.emptyGrid bu, []) with
    | none => simp [hfill] at h
    | some acc =>
      obtain ⟨grid, arrayObjects⟩ := acc
      simp only [hfill, Option.some.injEq] at h
      subst h
      have hnd : arrayObjects.Nodup :=
        fillPairs_nodup bu tapvector _ _ _ _ hfill List.nodup_nil
      have hmem := fillPairs_mem bu tapvector _ _ _ _ hfill
      refine ⟨?_, ?_⟩
      · have hperm : arrayObjects.Perm
            (((tapvector.filter fun tap => bu.inside tap.2).map Prod.fst).dedup) := by
          rw [List.perm_ext_iff_of_nodup hnd (List.nodup_dedup _)]
          intro o
          rw [hmem o, List.mem_dedup, List.mem_map]
          constructor
          · rintro (h | ⟨tap, ht, hin, rfl⟩)
            · simp at h
            · exact ⟨tap, List.mem_filter.2 ⟨ht, hin⟩, rfl⟩
          · rintro ⟨tap, ht, rfl⟩
            obtain ⟨ht1, ht2⟩ := List.mem_filter.1 ht
            exact Or.inr ⟨tap, ht1, ht2, rfl⟩
        exact hperm.length_eq
      · have hsub : (distinctObjects grid).map some ⊆ arrayObjects := by
          intro o ho
          obtain ⟨x, hx, rfl⟩ := List.mem_map.1 ho
          obtain ⟨i2, i1, i0, hcell⟩ :=
            (mem_cell_iff_gridAt grid (some x)).1 ((mem_distinctObjects grid x).1 hx)
          rw [fillPairs_gridAt bu tapvector _ _ _ _ hfill i0 i1 i2] at hcell
          cases hlast : (tapvector.filter fun tap =>
              bu.inside tap.2 && decide (bu.binTriple tap.2 = (i0, i1, i2))).getLast? with
          | none =>
            simp only [hlast, gridAt_emptyGrid] at hcell
            split at hcell <;> simp at hcell
          | some tap =>
            simp only [hlast, Option.some.injEq] at hcell
            have htap := List.mem_of_getLast?_eq_some hlast
            obtain ⟨ht1, ht2⟩ := List.mem_filter.1 htap
            simp only [Bool.and_eq_true] at ht2
            exact (hmem (some x)).2 (Or.inr ⟨tap, ht1, ht2.1, hcell⟩)
        have hnd' : ((distinctObjects grid).map some).Nodup :=
          (List.nodup_dedup _).map (Option.some_injective α)
        have hle := (List.subperm_of_subset hnd' hsub).length_le
        simpa [BinnedArrayXD.arrayObjects, BinnedArrayXD.objectGrid] using hle

/-- C6 amended, at a concrete pair list: `parityPairs` with `parityBins`. -/
theorem BinnedArrayXD.arrayObjects_length_witness :
    ∃ self : BinnedArrayXD Nat Nat Nat,
      BinnedArrayXD.fromPairs parityPairs parityBins = some self
        ∧ self.arrayObjects.length = 4
        ∧ (distinctObjects self.objectGrid).length ≤ self.arrayObjects.length :=
  ⟨_, rfl, rfl,
    ((@BinnedArrayXD.arrayObjects_length Nat Nat Nat _).2
      parityPairs parityBins _ rfl).2⟩

/-- C7: the claim fails on the code. The single-object constructor
initialises `m_objectGrid` empty, so its write to `[0][0][0]` is outside the
grid (the construction has no defined result), and on the members as
initialised both `object` overloads read `m_objectGrid[0][0][0]` outside the
grid instead of returning the object. -/
theorem BinnedArrayXD.single_object_undefined (object : Option α) (lposition : V2)
    (position : V3) (bins : BinTriple) :
    (BinnedArrayXD.single object : Option (BinnedArrayXD α V2 V3)) = none
    ∧ ((BinnedArrayXD.singleInit object : BinnedArrayXD α V2 V3).objectLocal
        lposition bins).1 = none
    ∧ ((BinnedArrayXD.singleInit object : BinnedArrayXD α V2 V3).object
        position bins).1 = none :=
  ⟨rfl, rfl, rfl⟩

/-- C8: the claim fails on the code. After the member initialisers of the
single-object constructor the grid is empty: it has no cell `[0][0][0]`, and
the write `m_objectGrid[0][0][0] = object` of the body is outside the grid. -/
theorem BinnedArrayXD.single_write_out_of_range (object : Option α) :
    (BinnedArrayXD.singleInit object : BinnedArrayXD α V2 V3).objectGrid = []
    ∧ gridAt (BinnedArrayXD.singleInit object : BinnedArrayXD α V2 V3).objectGrid 0 0 0 = none
    ∧ gridSet (BinnedArrayXD.singleInit object : BinnedArrayXD α V2 V3).objectGrid 0 0 0
        object = none :=
  ⟨rfl, rfl, rfl⟩

/-- The pair-list construction completes when every pair inside the domain
has a bin triple within the bin counts of the utility. -/
theorem fromPairs_isSome [DecidableEq α] (tapvector : List (Option α × V3))
    (bu : BinUtility V2 V3)
    (hrange : ∀ tap ∈ tapvector, bu.inside tap.2 = true →
      (bu.binTriple tap.2).1 < bu.bins 0 ∧ (bu.binTriple tap.2).2.1 < bu.bins 1
        ∧ (bu.binTriple tap.2).2.2 < bu.bins 2) :
    (BinnedArrayXD.fromPairs tapvector bu).isSome = true := by
  have h := fillPairs_isSome bu tapvector (BinnedArrayXD.emptyGrid bu) []
    (by
      intro tap ht hin
      obtain ⟨r0, r1, r2⟩ := hrange tap ht hin
      simp [gridAt_emptyGrid, r0, r1, r2])
  obtain ⟨acc, hacc⟩ := Option.isSome_iff_exists.1 h
  simp [BinnedArrayXD.fromPairs, hacc]

/-- C9: the pair-list construction completes when every inside-domain pair has
its bin triple within the grid, and after it every cell `(i0, i1, i2)` within
the grid holds the object of the last pair, in list order, whose position is
inside the domain and maps to that triple, and `nullptr` when no pair does. -/
theorem BinnedArrayXD.fromPairs_last_writer_wins [DecidableEq α]
    (tapvector : List (Option α × V3)) (bu : BinUtility V2 V3) :
    ((∀ tap ∈ tapvector, bu.inside tap.2 = true →
        (bu.binTriple tap.2).1 < bu.bins 0 ∧ (bu.binTriple tap.2).2.1 < bu.bins 1
          ∧ (bu.binTriple tap.2).2.2 < bu.bins 2) →
      (BinnedArrayXD.fromPairs tapvector bu).isSome = true)
    ∧ (∀ self : BinnedArrayXD α V2 V3, BinnedArrayXD.fromPairs tapvector bu = some self →
        ∀ i0 i1 i2 : Nat, i0 < bu.bins 0 → i1 < bu.bins 1 → i2 < bu.bins 2 →
          gridAt self.objectGrid i2 i1 i0
            = some (lastObjectAt bu tapvector (i0, i1, i2))) := by
  refine ⟨fromPairs_isSome tapvector bu, ?_⟩
  intro self h i0 i1 i2 h0 h1 h2
  unfold BinnedArrayXD.fromPairs at h
  cases hfill : BinnedArrayXD.fillPairs bu tapvector (BinnedArrayXD.emptyGrid bu, []) with
  | none => simp [hfill] at h
  | some acc =>
    obtain ⟨grid, arrayObjects⟩ := acc
    simp only [hfill, Option.some.injEq] at h
    subst h
    show gridAt grid i2 i1 i0 = _
    rw [fillPairs_gridAt bu tapvector _ _ _ _ hfill i0 i1 i2, gridAt_emptyGrid]
    unfold lastObjectAt
    cases (tapvector.filter fun tap =>
        bu.inside tap.2 && decide (bu.binTriple tap.2 = (i0, i1, i2))).getLast? with
    | none => simp [h0, h1, h2]
    | some tap => rfl

/-- C9, at the concrete pair list `parityPairs` with `parityBins`: bin 1 holds
object 12 (written after 11), bin 0 holds object 15 (written after 13). -/
theorem BinnedArrayXD.fromPairs_last_writer_wins_witness :
    ∃ self : BinnedArrayXD Nat Nat Nat,
      BinnedArrayXD.fromPairs parityPairs parityBins = some self
        ∧ gridAt self.objectGrid 0 0 1 = some (some 12)
        ∧ gridAt self.objectGrid 0 0 0 = some (some 15) :=
  ⟨_, rfl,
    (BinnedArrayXD.fromPairs_last_writer_wins parityPairs parityBins).2 _ rfl 1 0 0
      (by decide) (by decide) (by decide),
    rfl⟩

/-- C10: pairs whose position is outside the domain have no effect on the
pair-list construction: with them removed from the list, the construction
completes in the same cases and gives the same `objectGrid()` and the same
`arrayObjects()`. -/
theorem BinnedArrayXD.fromPairs_outside_dropped [DecidableEq α]
    (tapvector : List (Option α × V3)) (bu : BinUtility V2 V3) :
    (BinnedArrayXD.fromPairs (tapvector.filter fun tap => bu.inside tap.2) bu).isSome
        = (BinnedArrayXD.fromPairs tapvector bu).isSome
    ∧ (BinnedArrayXD.fromPairs (tapvector.filter fun tap => bu.inside tap.2) bu).map
          BinnedArrayXD.objectGrid
        = (BinnedArrayXD.fromPairs tapvector bu).map BinnedArrayXD.objectGrid
    ∧ (BinnedArrayXD.fromPairs (tapvector.filter fun tap => bu.inside tap.2) bu).map
          BinnedArrayXD.arrayObjects
        = (BinnedArrayXD.fromPairs tapvector bu).map BinnedArrayXD.arrayObjects := by
  have h : BinnedArrayXD.fromPairs (tapvector.filter fun tap => bu.inside tap.2) bu
      = BinnedArrayXD.fromPairs tapvector bu := by
    unfold BinnedArrayXD.fromPairs
    rw [fillPairs_filter_inside]
  rw [h]
  exact ⟨rfl, rfl, rfl⟩

end BinnedArrayClaims

/-! ## Lemmas: first occurrences -/

section FirstOccurrenceLemmas
variable {α : Type}

theorem foldl_pushUnique [DecidableEq α] (cells : List (Option α)) :
    ∀ arrayObjects : List (Option α),
      cells.foldl pushUnique arrayObjects
        = arrayObjects ++ (firstOccurrences cells).filter (fun c => decide (c ∉ arrayObjects)) := by
  induction cells with
  | nil => intro arrayObjects; simp [firstOccurrences]
  | cons o rest ih =>
    intro arrayObjects
    rw [List.foldl_cons, ih]
    by_cases ho : o ∈ arrayObjects
    · have hfilter : ((firstOccurrences rest).filter (fun c => decide (c ≠ o))).filter
            (fun c => decide (c ∉ arrayObjects))
          = (firstOccurrences rest).filter (fun c => decide (c ∉ arrayObjects)) := by
        rw [List.filter_filter]
        apply List.filter_congr
        intro c _
        by_cases hc : c ∈ arrayObjects
        · simp [hc]
        · have : c ≠ o := fun h => hc (h ▸ ho)
          simp [hc, this]
      simp only [pushUnique, ho, if_true, firstOccurrences, List.filter_cons, not_true_eq_false,
        decide_False, Bool.false_eq_true, if_false, hfilter]
    · have hfilter : (firstOccurrences rest).filter (fun c => decide (c ∉ arrayObjects ++ [o]))
          = ((firstOccurrences rest).filter (fun c => decide (c ≠ o))).filter
              (fun c => decide (c ∉ arrayObjects)) := by
        rw [List.filter_filter]
        apply List.filter_congr
        intro c _
        by_cases hc : c ∈ arrayObjects <;> by_cases hco : c = o <;> simp [hc, hco]
      simp only [pushUnique, ho, if_false, firstOccurrences, List.filter_cons, not_false_eq_true,
        decide_True, if_true, hfilter, List.append_assoc, List.singleton_append]

theorem length_filter_eq_of_nodup [DecidableEq α] (l : List (Option α)) (o : Option α)
    (hnd : l.Nodup) (ho : o ∈ l) : (l.filter fun c => decide (c = o)).length = 1 := by
  induction l with
  | nil => simp at ho
  | cons a rest ih =>
    rw [List.nodup_cons] at hnd
    by_cases ha : a = o
    · subst ha
      have hnone : rest.filter (fun c => decide (c = a)) = [] := by
        rw [List.filter_eq_nil_iff]
        intro c hc
        have : c ≠ a := fun h => hnd.1 (h ▸ hc)
        simp [this]
      simp [List.filter_cons, hnone]
    · have hrest : o ∈ rest := by
        rcases List.mem_cons.1 ho with h | h
        · exact absurd h.symm ha
        · exact h
      simp [List.filter_cons, ha, ih hnd.2 hrest]

theorem scanRow_eq_foldl [DecidableEq α] (o1 : List (Option α)) :
    ∀ arrayObjects : List (Option α),
      BinnedArrayXD.scanRow arrayObjects o1
        = (o1.filter Option.isSome).foldl pushUnique arrayObjects := by
  induction o1 with
  | nil => intro arrayObjects; rfl
  | cons o0 rest ih =>
    intro arrayObjects
    have hstep : BinnedArrayXD.scanRow arrayObjects (o0 :: rest)
        = BinnedArrayXD.scanRow (if o0.isSome then pushUnique arrayObjects o0 else arrayObjects)
            rest := rfl
    rw [hstep, ih]
    by_cases h0 : o0.isSome = true
    · simp [h0, List.filter_cons]
    · simp [h0, List.filter_cons]

theorem scanPlane_eq_foldl [DecidableEq α] (o2 : List (List (Option α))) :
    ∀ arrayObjects : List (Option α),
      o2.foldl BinnedArrayXD.scanRow arrayObjects
        = (o2.flatten.filter Option.isSome).foldl pushUnique arrayObjects := by
  induction o2 with
  | nil => intro arrayObjects; rfl
  | cons o1 rest ih =>
    intro arrayObjects
    rw [List.foldl_cons, ih, scanRow_eq_foldl, List.flatten_cons, List.filter_append,
      List.foldl_append]

theorem scanGrid_eq_foldl [DecidableEq α] (grid : ObjectGrid α) :
    ∀ arrayObjects : List (Option α),
      BinnedArrayXD.scanGrid arrayObjects grid
        = ((cellsInScanOrder grid).filter Option.isSome).foldl pushUnique arrayObjects := by
  induction grid with
  | nil => intro arrayObjects; rfl
  | cons o2 rest ih =>
    intro arrayObjects
    have hstep : BinnedArrayXD.scanGrid arrayObjects (o2 :: rest)
        = BinnedArrayXD.scanGrid (o2.foldl BinnedArrayXD.scanRow arrayObjects) rest := rfl
    rw [hstep, ih, scanPlane_eq_foldl]
    simp only [cellsInScanOrder, List.flatten_cons, List.flatten_append, List.filter_append,
      List.foldl_append]

end FirstOccurrenceLemmas

/-! ## Theorems: BinnedArrayXD, continued -/

section BinnedArrayClaims2
variable {α V2 V3 : Type}

/-- C11: after construction from a pre-built grid, `objectGrid()` is the given
grid, and `arrayObjects()` is the sequence of the non-empty cells in scan
order (`[i2]` outermost, then `[i1]`, then `[i0]`) with only the first
occurrence of each object kept: it holds no object twice, and an object is in
it exactly when it is non-empty and held by a cell of the grid. -/
theorem BinnedArrayXD.fromGrid_first_discovery [DecidableEq α] (grid : ObjectGrid α)
    (bu : BinUtility V2 V3) :
    (BinnedArrayXD.fromGrid grid bu).objectGrid = grid
    ∧ (BinnedArrayXD.fromGrid grid bu).arrayObjects
        = firstOccurrences ((cellsInScanOrder grid).filter Option.isSome)
    ∧ (BinnedArrayXD.fromGrid grid bu).arrayObjects.Nodup
    ∧ (∀ o : Option α, o ∈ (BinnedArrayXD.fromGrid grid bu).arrayObjects ↔
        (o.isSome = true ∧ o ∈ cellsInScanOrder grid))
    ∧ (∀ o : Option α, o.isSome = true → o ∈ cellsInScanOrder grid →
        ((BinnedArrayXD.fromGrid grid bu).arrayObjects.filter
          fun c => decide (c = o)).length = 1) := by
  have hnd : (BinnedArrayXD.scanGrid [] grid).Nodup := scanGrid_nodup grid [] List.nodup_nil
  have hmem : ∀ o : Option α, o ∈ BinnedArrayXD.scanGrid [] grid ↔
      (o.isSome = true ∧ o ∈ cellsInScanOrder grid) := by
    intro o
    rw [scanGrid_mem]
    simp only [List.not_mem_nil, false_or, cellsInScanOrder, List.mem_flatten]
    constructor
    · rintro ⟨hs, o2, h2, o1, h1, h0⟩
      exact ⟨hs, o1, ⟨o2, h2, h1⟩, h0⟩
    · rintro ⟨hs, o1, ⟨o2, h2, h1⟩, h0⟩
      exact ⟨hs, o2, h2, o1, h1, h0⟩
  refine ⟨rfl, ?_, hnd, hmem, ?_⟩
  · show BinnedArrayXD.scanGrid [] grid = _
    rw [scanGrid_eq_foldl, foldl_pushUnique]
    simp
  · intro o hs hcell
    exact length_filter_eq_of_nodup _ o hnd ((hmem o).2 ⟨hs, hcell⟩)

/-- C11, at a concrete grid of two planes with one row of two cells each:
object 2 is met first, object 1 next, the empty cell and the second
occurrence of object 2 are passed over. -/
theorem BinnedArrayXD.fromGrid_first_discovery_witness :
    (BinnedArrayXD.fromGrid [[[some 2, some 1]], [[none, some 2]]] parityBins).arrayObjects
      = [some 2, some 1] :=
  (BinnedArrayXD.fromGrid_first_discovery [[[some 2, some 1]], [[none, some 2]]]
    parityBins).2.1.trans (by decide)

/-- C14: no public query changes the array: after `object(lposition, bins)`,
`object(position, bins)`, `arrayObjects()`, `objectGrid()` or `binUtility()`,
and after any sequence of them, `objectGrid()` and `arrayObjects()` are what
they were before; only the caller's `bins` may differ. -/
theorem BinnedArrayXD.queries_leave_array (self : BinnedArrayXD α V2 V3) (bins : BinTriple) :
    (∀ query : Query V2 V3,
        (self.afterQuery bins query).1.objectGrid = self.objectGrid
        ∧ (self.afterQuery bins query).1.arrayObjects = self.arrayObjects)
    ∧ (∀ queries : List (Query V2 V3),
        (self.afterQueries bins queries).1.objectGrid = self.objectGrid
        ∧ (self.afterQueries bins queries).1.arrayObjects = self.arrayObjects) := by
  have hone : ∀ (bins : BinTriple) (query : Query V2 V3),
      (self.afterQuery bins query).1 = self := by
    intro bins query
    cases query <;> rfl
  have hall : ∀ (queries : List (Query V2 V3)) (bins : BinTriple),
      (self.afterQueries bins queries).1 = self := by
    intro queries
    induction queries with
    | nil => intro bins; rfl
    | cons query rest ih =>
      intro bins
      have hstep : self.afterQueries bins (query :: rest)
          = (self.afterQuery bins query).1.afterQueries (self.afterQuery bins query).2 rest :=
        rfl
      rw [hstep, hone bins query]
      exact ih _
  refine ⟨?_, ?_⟩
  · intro query
    rw [hone bins query]
    exact ⟨rfl, rfl⟩
  · intro queries
    rw [hall queries bins]
    exact ⟨rfl, rfl⟩

end BinnedArrayClaims2

/-! ## Theorems: SurfaceCollector, continued -/

section CollectorClaims2

theorem newlines_append (s t : String) : newlines (s ++ t) = newlines s + newlines t := by
  simp [newlines, String.data_append, List.count_append]

theorem newlines_setw (w : Int) (s : String) : newlines (setw w s) = newlines s := by
  have hblank : (' ' == Char.ofNat 10) = false := by decide
  rw [setw, newlines_append]
  simp [newlines, List.count_replicate, hblank]

/-- C15 as stated fails: with the debug flag on and a callable whose message
is "a", a newline and "b", `debugLog` appends two newline-terminated lines
to `debugString`, not one. -/
theorem debugLogCalling_counterexample :
    (debugLogCalling
        ({ options := { debug := true, debugString := "", debugPfxWidth := 0,
                        debugMsgWidth := 0 }
           navigation := { currentSurface := none }
           stepping := () } : PropagatorState Unit)
        (fun calls => ("a\nb", calls + 1)) 0).1.options.debugString
      = "   surface collector | a\nb\n"
    ∧ newlines "   surface collector | a\nb\n" = 2 :=
  ⟨by decide, by decide⟩

/-- C15, amended: with `state.options.debug` false, `debugLog` does not call the
callable (the callable's environment, for instance a count of its calls, is
what it was) and leaves the whole state, `debugString` included, unchanged;
with it true, the callable is called exactly once and `debugString` grows by
the three blanks, the padded prefix, the bar, the padded message and one
final newline: the text appended holds one newline more than the message, so
it is exactly one line when the message holds no newline. The `debugLog` used
by the call operator is the same function for a callable without
environment. -/
theorem debugLogCalling_gated {S E : Type} (state : PropagatorState S)
    (logAction : E → String × E) (env : E) :
    (state.options.debug = false → debugLogCalling state logAction env = (state, env))
    ∧ (state.options.debug = true →
        (debugLogCalling state logAction env).2 = (logAction env).2
        ∧ (debugLogCalling state logAction env).1.options.debugString
            = state.options.debugString
                ++ (("   " ++ setw state.options.debugPfxWidth "surface collector" ++ " | "
                      ++ setw state.options.debugMsgWidth (logAction env).1) ++ "\n"))
    ∧ newlines (("   " ++ setw state.options.debugPfxWidth "surface collector" ++ " | "
          ++ setw state.options.debugMsgWidth (logAction env).1) ++ "\n")
        = newlines (logAction env).1 + 1
    ∧ (∀ (message : String) (count : Nat),
        (debugLogCalling state (fun calls => (message, calls + 1)) count).2
          = if state.options.debug then count + 1 else count)
    ∧ (∀ action : Unit → String,
        (debugLogCalling state (fun e => (action (), e)) ()).1 = debugLog state action) := by
  have h1 : newlines "   " = 0 := by decide
  have h2 : newlines "surface collector" = 0 := by decide
  have h3 : newlines " | " = 0 := by decide
  have h5 : newlines "\n" = 1 := by decide
  refine ⟨?_, ?_, ?_, ?_, ?_⟩
  · intro hdebug
    simp [debugLogCalling, hdebug]
  · intro hdebug
    refine ⟨?_, ?_⟩
    · simp [debugLogCalling, hdebug]
    · simp [debugLogCalling, hdebug, String.append_assoc]
  · simp only [newlines_append, newlines_setw, h1, h2, h3, h5]
    omega
  · intro message count
    cases hdebug : state.options.debug <;> simp [debugLogCalling, hdebug]
  · intro action
    cases hdebug : state.options.debug <;> simp [debugLogCalling, debugLog, hdebug]

/-- C15 amended, at concrete states: with the debug flag off, a callable that
counts its calls stays at 0 and `debugString` stays empty; with it on, the
count is 1 and `debugString` is one line; a message of one character that
takes two bytes is padded to the width 5 with three blanks. -/
theorem debugLogCalling_gated_witness :
    debugLogCalling (stepAt 1 none) (fun calls => ("hit", calls + 1)) 0 = (stepAt 1 none, 0)
    ∧ (debugLogCalling
          ({ options := { debug := true, debugString := "", debugPfxWidth := 19,
                          debugMsgWidth := 5 }
             navigation := { currentSurface := none }
             stepping := () } : PropagatorState Unit)
          (fun calls => ("hit", calls + 1)) 0).2 = 1
    ∧ (debugLogCalling
          ({ options := { debug := true, debugString := "", debugPfxWidth := 19,
                          debugMsgWidth := 5 }
             navigation := { currentSurface := none }
             stepping := () } : PropagatorState Unit)
          (fun calls => ("hit", calls + 1)) 0).1.options.debugString
        = "     surface collector |   hit\n"
    ∧ setw 5 "é" = "   é" :=
  ⟨(debugLogCalling_gated (stepAt 1 none) (fun calls => ("hit", calls + 1)) 0).1 rfl,
    rfl, by decide, by decide⟩

theorem collect_append {S V : Type} (self : SurfaceCollector) (geoIDStream : Nat → String)
    (stepper : Stepper S V) (steps : List (PropagatorState S)) :
    ∀ result : this_result V,
      (self.collect geoIDStream stepper steps result).collected
        = result.collected ++ steps.filterMap (self.hitOf stepper) := by
  induction steps with
  | nil => intro result; simp [SurfaceCollector.collect]
  | cons state rest ih =>
    intro result
    have hstep : self.collect geoIDStream stepper (state :: rest) result
        = self.collect geoIDStream stepper rest (self.call geoIDStream state stepper result).2 :=
      rfl
    rw [hstep, ih]
    cases hcur : state.navigation.currentSurface with
    | none => simp [SurfaceCollector.call, SurfaceCollector.hitOf, hcur, List.filterMap_cons]
    | some surface =>
      cases hsel : self.selector surface <;>
        simp [SurfaceCollector.call, SurfaceCollector.hitOf, hcur, hsel, List.filterMap_cons]

/-- C17: running the three-argument call once per step, in order, from an
empty result gives exactly the hits of the steps whose `currentSurface` is
present and selected, in step order; nothing is deduplicated, so the number
of hits is the number of such steps, however often a surface recurs. -/
theorem SurfaceCollector.collect_eq_hits {S V : Type} (self : SurfaceCollector)
    (geoIDStream : Nat → String) (stepper : Stepper S V) (steps : List (PropagatorState S)) :
    (self.collect geoIDStream stepper steps { collected := [] }).collected
        = steps.filterMap (self.hitOf stepper)
    ∧ (self.collect geoIDStream stepper steps { collected := [] }).collected.length
        = steps.countP (fun state => (self.hitOf stepper state).isSome) := by
  have h := collect_append self geoIDStream stepper steps { collected := [] }
  simp only [List.nil_append] at h
  refine ⟨h, ?_⟩
  rw [h, List.length_filterMap_eq_countP]

/-- C17, at two concrete propagations with the default selector: sensitive
surfaces met at x = 1, 2, 3 (with a step off any surface and a step on a
passive surface in between) give the three hits at (1,0,0), (2,0,0), (3,0,0)
in that order; one sensitive surface met at x = 1 and again at x = 5 gives
two hits. -/
theorem SurfaceCollector.collect_eq_hits_witness :
    ((SurfaceCollector.ofSelector {}).collect (fun _ => "") pairStepper
        [stepAt 0 none, stepAt 1 (some (sensitiveSurface 1)), stepAt 2 (some (passiveSurface 9)),
          stepAt 2 (some (sensitiveSurface 2)), stepAt 3 (some (sensitiveSurface 3))]
        { collected := [] }).collected
      = [⟨some (sensitiveSurface 1), (1, 0, 0), (1, 0, 0)⟩,
         ⟨some (sensitiveSurface 2), (2, 0, 0), (1, 0, 0)⟩,
         ⟨some (sensitiveSurface 3), (3, 0, 0), (1, 0, 0)⟩]
    ∧ ((SurfaceCollector.ofSelector {}).collect (fun _ => "") pairStepper
        [stepAt 1 (some (sensitiveSurface 1)), stepAt 5 (some (sensitiveSurface 1))]
        { collected := [] }).collected
      = [⟨some (sensitiveSurface 1), (1, 0, 0), (1, 0, 0)⟩,
         ⟨some (sensitiveSurface 1), (5, 0, 0), (1, 0, 0)⟩] :=
  ⟨((SurfaceCollector.ofSelector {}).collect_eq_hits (fun _ => "") pairStepper _).1.trans
      (by decide),
    ((SurfaceCollector.ofSelector {}).collect_eq_hits (fun _ => "") pairStepper _).1.trans
      (by decide)⟩

end CollectorClaims2

/-! ## Theorems: StraightLineStepper -/

section StepperClaims
variable {V R C Z : Type}

/-- C13 as stated fails: a parameter set without covariance leaves `cov` as it
was, so two prior states with the covariances 1 and 2 still differ in `cov`
after the same update. -/
theorem StraightLineStepper.update_cov_counterexample :
    (StraightLineStepper.update lineOps (lineState 0 1 1 0 1) (linePars 5 (-3) 2 none)).cov = 1
    ∧ (StraightLineStepper.update lineOps (lineState 0 1 1 0 2) (linePars 5 (-3) 2 none)).cov
        = 2 :=
  ⟨rfl, rfl⟩

/-- C13, amended: `update(state, boundParameters)` overwrites `pos`, `dir`, `p`
and `t` from the parameter set, whatever the prior state: `pos` is
`pars.position()`, `dir` is `pars.momentum().normalized()`, `p` is
`pars.momentum().norm()` and `t` is `pars.time()`; `cov` is overwritten with
the covariance of the parameter set when it has one, and is left as it was
when it has none; no other member changes. -/
theorem StraightLineStepper.update_overwrites (ops : VectorOps V R)
    (pars : BoundParameters V R C) (s1 s2 : StraightLineStepper.State V R C Z) :
    (StraightLineStepper.update ops s1 pars).pos = pars.position
    ∧ (StraightLineStepper.update ops s1 pars).dir = ops.normalized pars.momentum
    ∧ (StraightLineStepper.update ops s1 pars).p = ops.norm pars.momentum
    ∧ (StraightLineStepper.update ops s1 pars).t = pars.time
    ∧ (StraightLineStepper.update ops s1 pars).cov = pars.covariance.getD s1.cov
    ∧ (StraightLineStepper.update ops s1 pars).pos = (StraightLineStepper.update ops s2 pars).pos
    ∧ (StraightLineStepper.update ops s1 pars).dir = (StraightLineStepper.update ops s2 pars).dir
    ∧ (StraightLineStepper.update ops s1 pars).p = (StraightLineStepper.update ops s2 pars).p
    ∧ (StraightLineStepper.update ops s1 pars).t = (StraightLineStepper.update ops s2 pars).t
    ∧ (∀ covariance : C, pars.covariance = some covariance →
        (StraightLineStepper.update ops s1 pars).cov = covariance
        ∧ (StraightLineStepper.update ops s2 pars).cov = covariance)
    ∧ (StraightLineStepper.update ops s1 pars).pathAccumulated = s1.pathAccumulated
    ∧ (StraightLineStepper.update ops s1 pars).stepSize = s1.stepSize
    ∧ (StraightLineStepper.update ops s1 pars).rest = s1.rest := by
  unfold StraightLineStepper.update
  cases hcov : pars.covariance <;> simp

/-- C13 amended, at a concrete parameter set that has the covariance 7: two
prior states that differ in every member agree in `pos`, `dir`, `p`, `t` and
`cov` after the update. -/
theorem StraightLineStepper.update_overwrites_witness :
    StraightLineStepper.update lineOps (lineState 0 1 1 0 1) (linePars 5 (-3) 2 (some 7))
        = lineState 5 (-1) 3 2 7
    ∧ StraightLineStepper.update lineOps (lineState 9 (-1) 4 8 2) (linePars 5 (-3) 2 (some 7))
        = lineState 5 (-1) 3 2 7
    ∧ (StraightLineStepper.update lineOps (lineState 0 1 1 0 1)
          (linePars 5 (-3) 2 (some 7))).cov = 7 :=
  ⟨rfl, rfl,
    ((StraightLineStepper.update_overwrites lineOps (linePars 5 (-3) 2 (some 7))
        (lineState 0 1 1 0 1) (lineState 9 (-1) 4 8 2)).2.2.2.2.2.2.2.2.2.1 7 rfl).1⟩

/-- C18: `update(state, position, direction, momentum, time)` is a direct
overwrite: afterwards `pos`, `dir`, `p` and `t` are the four arguments as
passed, and `cov`, the accumulated path length, the step size and every other
member are what they were. -/
theorem StraightLineStepper.updateDirect_overwrites (state : StraightLineStepper.State V R C Z)
    (uposition udirection : V) (up time : R) :
    StraightLineStepper.updateDirect state uposition udirection up time
      = { pos := uposition, dir := udirection, p := up, t := time, cov := state.cov,
          pathAccumulated := state.pathAccumulated, stepSize := state.stepSize,
          rest := state.rest } :=
  rfl

/-- C16 as stated fails: for the position 5 on the line and the surface with
the bounds `[-2, 2]` the position is outside the bounds, and what `boundState`
hands back is the triple of `detail::boundState`, whatever that function
computes, not a failure. -/
theorem StraightLineStepper.boundState_counterexample :
    (LineSurface.mk 2).insideBounds (lineState 5 1 1 0 1).pos = false
    ∧ ∀ detailBoundState : StraightLineStepper.State Int Nat Nat Unit → LineSurface →
          BoundParameters Int Nat Nat × Nat × Nat,
        StraightLineStepper.boundStateReport detailBoundState (lineState 5 1 1 0 1)
            (LineSurface.mk 2)
          = BoundStateReport.triple (detailBoundState (lineState 5 1 1 0 1) (LineSurface.mk 2)) :=
  ⟨by decide, fun _ => rfl⟩

/-- C16, amended: for every state and surface `boundState(state, surface)`
returns the triple that `detail::boundState(state, surface)` returns; its
return type has no failure value, so what it hands back is never the failure
"invalid local position". -/
theorem StraightLineStepper.boundState_returns_triple {St Sf T : Type}
    (detailBoundState : St → Sf → T) (state : St) (surface : Sf) :
    StraightLineStepper.boundState detailBoundState state surface
        = detailBoundState state surface
    ∧ StraightLineStepper.boundStateReport detailBoundState state surface
        = BoundStateReport.triple (detailBoundState state surface)
    ∧ StraightLineStepper.boundStateReport detailBoundState state surface
        ≠ BoundStateReport.invalidLocalPosition := by
  refine ⟨rfl, rfl, ?_⟩
  intro h
  cases h

end StepperClaims


/-! ## Lemmas: the delimiter in the printed identifier -/

section DelimiterLemmas

/-- The characters that decimal digits are not: the blank, the bar and the two
brackets. -/
theorem digitChar_plain (digit : Nat) (h : digit < 10) :
    Nat.digitChar digit ≠ ' ' ∧ Nat.digitChar digit ≠ '|' ∧ Nat.digitChar digit ≠ '['
      ∧ Nat.digitChar digit ≠ ']' := by
  interval_cases digit <;> decide

theorem toDigitsCore_plain (fuel : Nat) :
    ∀ (n : Nat) (ds : List Char),
      (∀ c ∈ ds, c ≠ ' ' ∧ c ≠ '|' ∧ c ≠ '[' ∧ c ≠ ']') →
      ∀ c ∈ Nat.toDigitsCore 10 fuel n ds, c ≠ ' ' ∧ c ≠ '|' ∧ c ≠ '[' ∧ c ≠ ']' := by
  induction fuel with
  | zero => intro n ds hds c hc; exact hds c hc
  | succ fuel ih =>
    intro n ds hds c hc
    have hcons : ∀ c ∈ Nat.digitChar (n % 10) :: ds, c ≠ ' ' ∧ c ≠ '|' ∧ c ≠ '[' ∧ c ≠ ']' := by
      intro c hc
      rcases List.mem_cons.1 hc with h | h
      · rw [h]
        exact digitChar_plain (n % 10) (Nat.mod_lt n (by decide))
      · exact hds c h
    simp only [Nat.toDigitsCore] at hc
    split at hc
    · exact hcons c hc
    · exact ih _ _ hcons c hc

theorem toString_plain (n : Nat) :
    ∀ c ∈ (toString n).data, c ≠ ' ' ∧ c ≠ '|' ∧ c ≠ '[' ∧ c ≠ ']' := by
  intro c hc
  have hdata : (toString n).data = Nat.toDigits 10 n := rfl
  rw [hdata] at hc
  exact toDigitsCore_plain (n + 1) n [] (by simp) c hc

theorem setw_data (w : Int) (s : String) :
    (setw w s).data = List.replicate (w - s.utf8ByteSize).toNat ' ' ++ s.data := rfl

theorem setw_no_bar (w : Int) (n : Nat) : '|' ∉ (setw w (toString n)).data := by
  rw [setw_data]
  intro h
  rcases List.mem_append.1 h with h | h
  · have := (List.mem_replicate.1 h).2
    exact absurd this (by decide)
  · exact (toString_plain n _ h).2.1 rfl

theorem strFind_no_bar (s : List Char) (h : '|' ∉ s) : strFind [' ', '|', ' '] s = none := by
  induction s with
  | nil => simp [strFind, startsWith]
  | cons c rest ih =>
    have hrest : '|' ∉ rest := fun hm => h (List.mem_cons_of_mem _ hm)
    have hstart : startsWith (c :: rest) [' ', '|', ' '] = false := by
      cases rest with
      | nil => simp [startsWith]
      | cons d rest2 =>
        have hd : d ≠ '|' := fun e => hrest (e ▸ List.mem_cons_self _ _)
        simp [startsWith, hd]
    simp [strFind, hstart, ih hrest]

theorem strFind_at_delimiter (pre rest : List Char) (h : '|' ∉ pre) :
    strFind [' ', '|', ' '] (pre ++ ' ' :: '|' :: ' ' :: rest) = some pre.length := by
  induction pre with
  | nil => simp [strFind, startsWith]
  | cons c pre ih =>
    have hpre : '|' ∉ pre := fun hm => h (List.mem_cons_of_mem _ hm)
    have hstart : startsWith (c :: (pre ++ ' ' :: '|' :: ' ' :: rest)) [' ', '|', ' ']
        = false := by
      cases pre with
      | nil =>
        have : (' ' == '|') = false := by decide
        simp [startsWith, this]
      | cons d pre2 =>
        have hd : d ≠ '|' := fun e => hpre (e ▸ List.mem_cons_self _ _)
        simp [startsWith, hd]
    simp [strFind, hstart, ih hpre]

theorem splitLoop_at_delimiter (fuel : Nat) (pre rest : List Char) (Ids : List (List Char))
    (h : '|' ∉ pre) :
    splitLoop [' ', '|', ' '] (fuel + 1) (pre ++ ' ' :: '|' :: ' ' :: rest) Ids
      = splitLoop [' ', '|', ' '] fuel rest (Ids ++ [pre]) := by
  have hdrop : (pre ++ ' ' :: '|' :: ' ' :: rest).drop (pre.length + 3) = rest := by
    rw [List.drop_append]
    rfl
  have htake : (pre ++ ' ' :: '|' :: ' ' :: rest).take pre.length = pre := by
    simp
  simp only [splitLoop, strFind_at_delimiter pre rest h, List.length_cons, List.length_nil,
    hdrop, htake]

theorem splitLoop_no_bar (fuel : Nat) (s : List Char) (Ids : List (List Char))
    (h : '|' ∉ s) : splitLoop [' ', '|', ' '] (fuel + 1) s Ids = some (Ids, s) := by
  simp only [splitLoop, strFind_no_bar s h]

theorem countOccurrences_no_bar (s : List Char) (h : '|' ∉ s) :
    countOccurrences [' ', '|', ' '] s = 0 := by
  induction s with
  | nil => rfl
  | cons c rest ih =>
    have hrest : '|' ∉ rest := fun hm => h (List.mem_cons_of_mem _ hm)
    have hstart : startsWith (c :: rest) [' ', '|', ' '] = false := by
      cases rest with
      | nil => simp [startsWith]
      | cons d rest2 =>
        have hd : d ≠ '|' := fun e => hrest (e ▸ List.mem_cons_self _ _)
        simp [startsWith, hd]
    simp [countOccurrences, hstart, ih hrest]

theorem countOccurrences_at_delimiter (pre rest : List Char) (h : '|' ∉ pre)
    (hrest : rest.head? ≠ some '|') :
    countOccurrences [' ', '|', ' '] (pre ++ ' ' :: '|' :: ' ' :: rest)
      = 1 + countOccurrences [' ', '|', ' '] rest := by
  induction pre with
  | nil =>
    have h1 : startsWith ('|' :: ' ' :: rest) [' ', '|', ' '] = false := by
      have : ('|' == ' ') = false := by decide
      simp [startsWith, this]
    have h2 : startsWith (' ' :: rest) [' ', '|', ' '] = false := by
      cases rest with
      | nil => simp [startsWith]
      | cons d rest2 =>
        have hd : d ≠ '|' := fun e => hrest (by simp [e])
        simp [startsWith, hd]
    have h0 : startsWith (' ' :: '|' :: ' ' :: rest) [' ', '|', ' '] = true := by
      simp [startsWith]
    simp only [List.nil_append, countOccurrences, h0, h1, h2]
    simp
  | cons c pre ih =>
    have hpre : '|' ∉ pre := fun hm => h (List.mem_cons_of_mem _ hm)
    have hstart : startsWith (c :: (pre ++ ' ' :: '|' :: ' ' :: rest)) [' ', '|', ' ']
        = false := by
      cases pre with
      | nil =>
        have : (' ' == '|') = false := by decide
        simp [startsWith, this]
      | cons d pre2 =>
        have hd : d ≠ '|' := fun e => hpre (e ▸ List.mem_cons_self _ _)
        simp [startsWith, hd]
    simp [countOccurrences, hstart, ih hpre]

theorem eraseBlanksAndBrackets_field (lead : List Char) (digits : List Char)
    (hlead : ∀ c ∈ lead, c = ' ' ∨ c = '[' ∨ c = ']')
    (hdigits : ∀ c ∈ digits, c ≠ ' ' ∧ c ≠ '|' ∧ c ≠ '[' ∧ c ≠ ']')
    (trail : List Char) (htrail : ∀ c ∈ trail, c = ' ' ∨ c = '[' ∨ c = ']') :
    eraseBlanksAndBrackets (lead ++ digits ++ trail) = digits := by
  have hone : eraseBlanksAndBrackets (lead ++ digits ++ trail)
      = (lead ++ digits ++ trail).filter (fun c => c != ' ' && c != '[' && c != ']') := by
    simp only [eraseBlanksAndBrackets, List.filter_filter]
    apply List.filter_congr
    intro c _
    cases (c != ' ') <;> cases (c != '[') <;> cases (c != ']') <;> rfl
  have hl : lead.filter (fun c => c != ' ' && c != '[' && c != ']') = [] := by
    rw [List.filter_eq_nil_iff]
    intro c hc
    rcases hlead c hc with e | e | e <;> rw [e] <;> decide
  have ht : trail.filter (fun c => c != ' ' && c != '[' && c != ']') = [] := by
    rw [List.filter_eq_nil_iff]
    intro c hc
    rcases htrail c hc with e | e | e <;> rw [e] <;> decide
  have hd : digits.filter (fun c => c != ' ' && c != '[' && c != ']') = digits := by
    rw [List.filter_eq_self]
    intro c hc
    obtain ⟨h1, _, h3, h4⟩ := hdigits c hc
    simp [h1, h3, h4]
  rw [hone, List.filter_append, List.filter_append, hl, ht, hd]
  simp

theorem head?_ne_bar_of_no_bar (s : List Char) (h : '|' ∉ s) : s.head? ≠ some '|' := by
  cases s with
  | nil => simp
  | cons c rest =>
    have hc : c ≠ '|' := fun e => h (e ▸ List.mem_cons_self _ _)
    simp [hc]

theorem head?_append_ne_bar (pre rest : List Char) (h : '|' ∉ pre) :
    (pre ++ ' ' :: rest).head? ≠ some '|' := by
  cases pre with
  | nil => simp
  | cons c pre =>
    have hc : c ≠ '|' := fun e => h (e ▸ List.mem_cons_self _ _)
    simp [hc]

theorem splitLoop_five (a0 a1 a2 a3 a4 : List Char) (h0 : '|' ∉ a0) (h1 : '|' ∉ a1)
    (h2 : '|' ∉ a2) (h3 : '|' ∉ a3) (h4 : '|' ∉ a4) (fuel : Nat) (hfuel : 5 ≤ fuel) :
    splitLoop [' ', '|', ' '] fuel
        (a0 ++ ' ' :: '|' :: ' ' :: (a1 ++ ' ' :: '|' :: ' ' :: (a2 ++ ' ' :: '|' :: ' ' ::
          (a3 ++ ' ' :: '|' :: ' ' :: a4)))) []
      = some ([a0, a1, a2, a3], a4) := by
  obtain ⟨m, rfl⟩ : ∃ m, fuel = m + 5 := ⟨fuel - 5, by omega⟩
  rw [splitLoop_at_delimiter _ _ _ _ h0, splitLoop_at_delimiter _ _ _ _ h1,
    splitLoop_at_delimiter _ _ _ _ h2, splitLoop_at_delimiter _ _ _ _ h3,
    splitLoop_no_bar _ _ _ h4]
  rfl

theorem countOccurrences_five (a0 a1 a2 a3 a4 : List Char) (h0 : '|' ∉ a0) (h1 : '|' ∉ a1)
    (h2 : '|' ∉ a2) (h3 : '|' ∉ a3) (h4 : '|' ∉ a4) :
    countOccurrences [' ', '|', ' ']
        (a0 ++ ' ' :: '|' :: ' ' :: (a1 ++ ' ' :: '|' :: ' ' :: (a2 ++ ' ' :: '|' :: ' ' ::
          (a3 ++ ' ' :: '|' :: ' ' :: a4))))
      = 4 := by
  rw [countOccurrences_at_delimiter _ _ h0 (head?_append_ne_bar _ _ h1),
    countOccurrences_at_delimiter _ _ h1 (head?_append_ne_bar _ _ h2),
    countOccurrences_at_delimiter _ _ h2 (head?_append_ne_bar _ _ h3),
    countOccurrences_at_delimiter _ _ h3 (head?_ne_bar_of_no_bar _ h4),
    countOccurrences_no_bar _ h4]

theorem toStream_data (access : GeometryIDAccess) (id : Nat) :
    (GeometryID.toStream access id).data
      = ('[' :: ' ' :: (setw 3 (toString (access.volume id))).data) ++ ' ' :: '|' :: ' ' ::
          ((setw 3 (toString (access.boundary id))).data ++ ' ' :: '|' :: ' ' ::
            ((setw 3 (toString (access.layer id))).data ++ ' ' :: '|' :: ' ' ::
              ((setw 3 (toString (access.approach id))).data ++ ' ' :: '|' :: ' ' ::
                ((setw 4 (toString (access.sensitive id))).data ++ [' ', ']'])))) := by
  simp only [GeometryID.toStream, String.data_append, List.append_assoc]
  rfl

theorem eraseBlanksAndBrackets_setw (w : Int) (n : Nat) :
    eraseBlanksAndBrackets (setw w (toString n)).data = (toString n).data := by
  have h := eraseBlanksAndBrackets_field
    (List.replicate (w - (toString n).utf8ByteSize).toNat ' ') (toString n).data
    (by
      intro c hc
      exact Or.inl (List.mem_replicate.1 hc).2)
    (toString_plain n) [] (by simp)
  rw [setw_data]
  simpa using h

theorem eraseBlanksAndBrackets_first (w : Int) (n : Nat) :
    eraseBlanksAndBrackets ('[' :: ' ' :: (setw w (toString n)).data) = (toString n).data := by
  have h := eraseBlanksAndBrackets_field
    ('[' :: ' ' :: List.replicate (w - (toString n).utf8ByteSize).toNat ' ') (toString n).data
    (by
      intro c hc
      rcases List.mem_cons.1 hc with e | hc
      · exact Or.inr (Or.inl e)
      · rcases List.mem_cons.1 hc with e | hc
        · exact Or.inl e
        · exact Or.inl (List.mem_replicate.1 hc).2)
    (toString_plain n) [] (by simp)
  rw [setw_data]
  simpa using h

end DelimiterLemmas

/-! ## Theorems: materialPlotHelper.cpp -/

section PlotHelperClaims

/-- C21: for every geometry identifier the text written by `operator<<` holds
the delimiter " | " exactly four times; the loop of `Initialise_info` splits
it into exactly five parts, so every access `Ids[0]` to `Ids[4]` is inside
the vector and the function completes; and `idname` is "v", "_b", "_l" and
"_a" each followed by the decimal value of the volume, boundary, layer and
approach field, with no blank and no bracket in it. -/
theorem Initialise_info_idname {F : Type} (access : GeometryIDAccess) (surface_info : sinfo F)
    (surface_name : String → Option String) (id : Nat) (type : Int)
    (pos range_min range_max : F) :
    countOccurrences " | ".data (GeometryID.toStream access id).data = 4
    ∧ (∃ (Ids : List (List Char)) (Id_temp : List Char),
        splitLoop " | ".data ((GeometryID.toStream access id).data.length + 1)
            (GeometryID.toStream access id).data [] = some (Ids, Id_temp)
        ∧ (Ids ++ [Id_temp]).length = 5)
    ∧ (∃ info : sinfo F,
        Initialise_info access surface_info surface_name id type pos range_min range_max
            = some info
        ∧ info.idname
            = "v" ++ toString (access.volume id) ++ "_b" ++ toString (access.boundary id)
                ++ "_l" ++ toString (access.layer id) ++ "_a" ++ toString (access.approach id)
        ∧ (∀ c ∈ info.idname.data, c ≠ ' ' ∧ c ≠ '[' ∧ c ≠ ']')
        ∧ info.id = GeometryID.toStream access id) := by
  have n0 : '|' ∉ '[' :: ' ' :: (setw 3 (toString (access.volume id))).data := by
    intro h
    rcases List.mem_cons.1 h with e | h
    · exact absurd e (by decide)
    · rcases List.mem_cons.1 h with e | h
      · exact absurd e (by decide)
      · exact setw_no_bar _ _ h
  have n1 := setw_no_bar 3 (access.boundary id)
  have n2 := setw_no_bar 3 (access.layer id)
  have n3 := setw_no_bar 3 (access.approach id)
  have n4 : '|' ∉ (setw 4 (toString (access.sensitive id))).data ++ [' ', ']'] := by
    intro h
    rcases List.mem_append.1 h with h | h
    · exact setw_no_bar _ _ h
    · simp at h
  have hsplit : splitLoop " | ".data ((GeometryID.toStream access id).data.length + 1)
      (GeometryID.toStream access id).data []
      = some (['[' :: ' ' :: (setw 3 (toString (access.volume id))).data,
          (setw 3 (toString (access.boundary id))).data,
          (setw 3 (toString (access.layer id))).data,
          (setw 3 (toString (access.approach id))).data],
          (setw 4 (toString (access.sensitive id))).data ++ [' ', ']']) := by
    rw [toStream_data]
    exact splitLoop_five _ _ _ _ _ n0 n1 n2 n3 n4 _ (by simp; omega)
  refine ⟨?_, ⟨_, _, hsplit, rfl⟩, ?_⟩
  · rw [toStream_data]
    exact countOccurrences_five _ _ _ _ _ n0 n1 n2 n3 n4
  · have herase : eraseLoop 5 0
        (['[' :: ' ' :: (setw 3 (toString (access.volume id))).data,
            (setw 3 (toString (access.boundary id))).data,
            (setw 3 (toString (access.layer id))).data,
            (setw 3 (toString (access.approach id))).data]
          ++ [(setw 4 (toString (access.sensitive id))).data ++ [' ', ']']])
        = some [(toString (access.volume id)).data, (toString (access.boundary id)).data,
            (toString (access.layer id)).data, (toString (access.approach id)).data,
            eraseBlanksAndBrackets
              ((setw 4 (toString (access.sensitive id))).data ++ [' ', ']'])] := by
      rw [← eraseBlanksAndBrackets_first 3 (access.volume id),
        ← eraseBlanksAndBrackets_setw 3 (access.boundary id),
        ← eraseBlanksAndBrackets_setw 3 (access.layer id),
        ← eraseBlanksAndBrackets_setw 3 (access.approach id)]
      rfl
    refine ⟨_, by simp only [Initialise_info, hsplit, herase]; rfl, ?_, ?_, rfl⟩
    · apply String.ext
      simp only [String.data_append, List.append_assoc]
      rfl
    · intro c hc
      simp only [List.mem_append] at hc
      have hplain : ∀ (n : Nat) (c : Char), c ∈ (toString n).data →
          c ≠ ' ' ∧ c ≠ '[' ∧ c ≠ ']' :=
        fun n c h => ⟨(toString_plain n c h).1, (toString_plain n c h).2.2⟩
      have hlit : ∀ (s : String), (∀ c ∈ s.data, c ≠ ' ' ∧ c ≠ '[' ∧ c ≠ ']') → c ∈ s.data →
          c ≠ ' ' ∧ c ≠ '[' ∧ c ≠ ']' := fun s hs h => hs c h
      rcases hc with ((((((h | h) | h) | h) | h) | h) | h) | h
      · exact hlit "v" (by decide) h
      · exact hplain _ c h
      · exact hlit "_b" (by decide) h
      · exact hplain _ c h
      · exact hlit "_l" (by decide) h
      · exact hplain _ c h
      · exact hlit "_a" (by decide) h
      · exact hplain _ c h

/-- C21, at two concrete identifiers with `bitFieldAccess`: the fields 1, 2, 3,
4, 5 are printed with padding and give "v1_b2_l3_a4"; the identifier with all
64 bits set has fields wider than the padding and gives
"v255_b255_l4095_a255". -/
theorem Initialise_info_idname_witness :
    GeometryID.toStream bitFieldAccess (2 ^ 56 + 2 * 2 ^ 48 + 3 * 2 ^ 36 + 4 * 2 ^ 28 + 5)
        = "[   1 |   2 |   3 |   4 |    5 ]"
    ∧ (Initialise_info bitFieldAccess ⟨"", "", "", 0, (0 : Int), 0, 0⟩ (fun _ => none)
          (2 ^ 56 + 2 * 2 ^ 48 + 3 * 2 ^ 36 + 4 * 2 ^ 28 + 5) 1 2 3 4).map
        (fun info => info.idname) = some "v1_b2_l3_a4"
    ∧ (Initialise_info bitFieldAccess ⟨"", "", "", 0, (0 : Int), 0, 0⟩ (fun _ => none)
          (2 ^ 64 - 1) 1 2 3 4).map (fun info => (info.idname, info.id))
        = some ("v255_b255_l4095_a255", "[ 255 | 255 | 4095 | 255 | 268435455 ]") := by
  refine ⟨by decide, by decide, by decide⟩

end PlotHelperClaims

end Acts
